import Mathlib

/-!
Shallow embedding of the renaming pipeline of `MediaRenamer_v2.py`
(repository lykant/MediaRenamerV2).

Conventions of the embedding:

* Python `None`-able strings become `Option String`; Python truthiness of a
  string (`None` and `""` are falsy) is `truthyStr`; Python `a or b` on such
  values is `pyOr`.
* Python `datetime` values are `PyDateTime` records of their six calendar
  fields.  `get_utc_time` in the source only attaches `tzinfo=timezone.utc`
  to a naive value without converting the fields, so it is the identity on
  the modelled fields and is not given a separate definition.
* The filesystem and the metadata decoders are modelled as an explicit
  `FSView`: EXIF tags, the ffmpeg probe result and the OS creation and
  modification times, all keyed by the file path.  A probe failure (the
  `except` around `ffmpeg.probe`) is `none`.
* Code that can raise an uncaught exception returns `Except Unit`; code
  whose exceptions are caught locally stays total.
* The pandas frame `df_global_media` is a snapshot of the record list at the
  moment `create_df_global_media` ran; it is modelled as a `List
  FileMetadata` carried next to the live list.  A pandas `query` comparing a
  column to an f-string interpolation of a value `v` is modelled as equality
  of the column entry with `pyStr v` (`pyStr none = "None"`), which is
  faithful for values that contain no quote character; the theorems that use
  it carry that hypothesis where the value is not known.
-/

/-- Python truthiness of an optional string: `None` and `""` are falsy. -/
def truthyStr : Option String → Bool
  | none => false
  | some s => !(s == "")

/-- Python `a or b` on optional strings. -/
def pyOr (a b : Option String) : Option String :=
  if truthyStr a then a else b

/-- Python `str(v)` on an optional string, as used by f-string interpolation:
`str(None) = "None"`. -/
def pyStr : Option String → String
  | none => "None"
  | some s => s

/-- Zero-pad a natural number to two digits, Python `f"{n:02d}"`. -/
def pad2 (n : Nat) : String :=
  if n < 10 then "0" ++ toString n else toString n

/-- Zero-pad a natural number to four digits, `strftime` `%Y`. -/
def pad4 (n : Nat) : String :=
  if n < 10 then "000" ++ toString n
  else if n < 100 then "00" ++ toString n
  else if n < 1000 then "0" ++ toString n
  else toString n

/-- A Python `datetime` value, reduced to its six calendar fields.  The
timezone attached by `get_utc_time` never changes these fields. -/
structure PyDateTime where
  year : Nat
  month : Nat
  day : Nat
  hour : Nat
  minute : Nat
  second : Nat
deriving Repr, DecidableEq

/-- Lexicographic comparison of two datetimes, as Python compares
`datetime` values field by field. -/
def dt_le (a b : PyDateTime) : Bool :=
  if a.year ≠ b.year then a.year < b.year
  else if a.month ≠ b.month then a.month < b.month
  else if a.day ≠ b.day then a.day < b.day
  else if a.hour ≠ b.hour then a.hour < b.hour
  else if a.minute ≠ b.minute then a.minute < b.minute
  else a.second ≤ b.second

/-- Python `min` on two datetimes (returns the first argument on ties). -/
def dt_min (a b : PyDateTime) : PyDateTime :=
  if dt_le a b then a else b

/-- `get_min`: minimum of two optional datetimes, a missing side yields the
present side (`min(value1, value2) if value1 and value2 else value1 or
value2`; a `datetime` is always truthy). -/
def get_min (a b : Option PyDateTime) : Option PyDateTime :=
  match a, b with
  | some x, some y => some (dt_min x y)
  | some x, none => some x
  | none, some y => some y
  | none, none => none

/-- `NAME_FORMAT = "%Y%m%d-%H%M%S"` applied by `strftime`. -/
def strftime_name (d : PyDateTime) : String :=
  pad4 d.year ++ pad2 d.month ++ pad2 d.day ++ "-" ++
    pad2 d.hour ++ pad2 d.minute ++ pad2 d.second

/-- `date_to_str`: format a datetime with `NAME_FORMAT`, or pass `None`
through. -/
def date_to_str (d : Option PyDateTime) : Option String :=
  d.map strftime_name

/-- Days in a month, with the Gregorian leap-year rule, as `datetime`
validates day-of-month. -/
def days_in_month (y m : Nat) : Nat :=
  if m = 2 then
    if y % 4 = 0 ∧ (y % 100 ≠ 0 ∨ y % 400 = 0) then 29 else 28
  else if m = 4 ∨ m = 6 ∨ m = 9 ∨ m = 11 then 30
  else 31

/-- Range validation shared by the parsers, as `datetime` construction
validates its arguments. -/
def valid_dt (d : PyDateTime) : Bool :=
  1 ≤ d.month && d.month ≤ 12 && 1 ≤ d.day && d.day ≤ days_in_month d.year d.month
    && d.hour ≤ 23 && d.minute ≤ 59 && d.second ≤ 59

/-- Split a character list at every occurrence of `c`, like Python
`str.split` with a one-character separator (keeping empty parts). -/
def splitOnChar (c : Char) : List Char → List (List Char)
  | [] => [[]]
  | x :: xs =>
    if x = c then [] :: splitOnChar c xs
    else
      match splitOnChar c xs with
      | h :: t => (x :: h) :: t
      | [] => [[x]]

/-- Join character lists with a separator character, the inverse of
`splitOnChar`. -/
def joinWithChar (c : Char) : List (List Char) → List Char
  | [] => []
  | [x] => x
  | x :: xs => x ++ c :: joinWithChar c xs

/-- Decimal value of a digit string. -/
def charsToNat (cs : List Char) : Nat :=
  cs.foldl (fun a c => a * 10 + (c.toNat - 48)) 0

/-- A decimal field of at most `w` digits, nonempty. -/
def parse_field (w : Nat) (cs : List Char) : Option Nat :=
  if cs.length = 0 ∨ w < cs.length ∨ ¬ cs.all Char.isDigit then none
  else some (charsToNat cs)

/-- `datetime.strptime(s, "%Y:%m:%d %H:%M:%S")` (`DT_FORMAT`): a four-digit
year, one-or-two-digit remaining fields, exact separators, validated
ranges; any mismatch raises, modelled as `none`. -/
def strptime_dt (s : String) : Option PyDateTime :=
  match splitOnChar ' ' s.toList with
  | [ds, ts] =>
    match splitOnChar ':' ds, splitOnChar ':' ts with
    | [ys, ms, dds], [hs, mins, ss] =>
      match parse_field 4 ys, parse_field 2 ms, parse_field 2 dds,
            parse_field 2 hs, parse_field 2 mins, parse_field 2 ss with
      | some y, some mo, some dd, some h, some mi, some sec =>
        if ys.length = 4 then
          let d : PyDateTime := ⟨y, mo, dd, h, mi, sec⟩
          if valid_dt d then some d else none
        else none
      | _, _, _, _, _, _ => none
    | _, _ => none
  | _ => none

/-- The supported media extensions, `FILE_EXTENSIONS`. -/
def FILE_EXTENSIONS : List String := ["jpg", "heic", "mov", "mp4", "mpg", "gif", "m4a"]

/-- The EXIF tags probed by `get_date_taken`, `EXIF_TAGS` (source order). -/
def EXIF_TAGS : List String :=
  ["Image DateTime", "EXIF DateTimeOriginal", "EXIF DateTimeDigitized"]

/-- The ffmpeg tags probed by `get_ffmpeg_time`, `FFMPEG_TAGS`. -/
def FFMPEG_TAGS : List String :=
  ["com.apple.quicktime.creationdate", "creation_time"]

/-- The outside world as the pipeline reads it, keyed by a file's full
path: the EXIF tag table of the file, the ffmpeg probe result (`none` when
`ffmpeg.probe` raises, otherwise its format-tag table) and the OS creation
and modification timestamps (always present for an existing readable
file). -/
structure FSView where
  exifTag : String → String → Option String
  ffmpegProbe : String → Option (String → Option String)
  ctime : String → PyDateTime
  mtime : String → PyDateTime

/-- `get_os_date`: the earlier of creation and modification time; never
`None`. -/
def get_os_date (fs : FSView) (full_path : String) : Option PyDateTime :=
  get_min (some (fs.ctime full_path)) (some (fs.mtime full_path))

/-- One step of the EXIF loop body of `get_date_taken`: an absent tag is
skipped, a parse failure is swallowed by the `try`/`except`, a parsed value
is folded in with `get_min`. -/
def exif_step (acc : Option PyDateTime) (raw : Option String) : Option PyDateTime :=
  match raw with
  | none => acc
  | some v =>
    match strptime_dt v with
    | none => acc
    | some dt => get_min acc (some dt)

/-- `get_date_taken`: fold the EXIF date tags, keeping the earliest value
that parses; malformed tags are treated as absent. -/
def get_date_taken (fs : FSView) (full_path : String) : Option PyDateTime :=
  EXIF_TAGS.foldl (fun acc tag => exif_step acc (fs.exifTag full_path tag)) none

/-- A small model of `datetime.fromisoformat` after the source's
`replace("Z", "+00:00")`: `YYYY-MM-DD`, optionally a separator character
then `HH:MM:SS` with optional fractional seconds (dropped) and an optional
`+HH:MM`/`-HH:MM` offset (dropped: the source's `get_utc_time` replaces the
tzinfo without converting the fields).  Anything else raises, i.e.
`none`. -/
def parse_iso (s0 : String) : Option PyDateTime :=
  let chars := (s0.toList).flatMap (fun c => if c = 'Z' then ['+', '0', '0', ':', '0', '0'] else [c])
  -- strip a trailing "+HH:MM" / "-HH:MM" offset, if any, past the date part
  let cs :=
    if chars.length ≥ 16 ∧
        (chars.getD (chars.length - 6) ' ' = '+' ∨ chars.getD (chars.length - 6) ' ' = '-') then
      chars.take (chars.length - 6)
    else chars
  if cs.length < 10 then none
  else
    let ds := cs.take 10
    let rest := cs.drop 10
    match splitOnChar '-' ds with
    | [ys, ms, dds] =>
      match parse_field 4 ys, parse_field 2 ms, parse_field 2 dds with
      | some y, some mo, some dd =>
        if ys.length = 4 ∧ ms.length = 2 ∧ dds.length = 2 then
          match rest with
          | [] =>
            let d : PyDateTime := ⟨y, mo, dd, 0, 0, 0⟩
            if valid_dt d then some d else none
          | _ :: timeCs =>
            -- one separator character, then the time, fraction dropped
            let tmain := (splitOnChar '.' timeCs).headD timeCs
            match splitOnChar ':' tmain with
            | [hs, mins, ss] =>
              match parse_field 2 hs, parse_field 2 mins, parse_field 2 ss with
              | some h, some mi, some sec =>
                if hs.length = 2 ∧ mins.length = 2 ∧ ss.length = 2 then
                  let d : PyDateTime := ⟨y, mo, dd, h, mi, sec⟩
                  if valid_dt d then some d else none
                else none
              | _, _, _ => none
            | _ => none
        else none
      | _, _, _ => none
    | _ => none

/-- `get_ffmpeg_time`: `none` probe (a raised `ffmpeg.probe`) is caught and
yields no date; a present, truthy tag value is parsed by
`datetime.fromisoformat` with no surrounding `try`, so a parse failure
raises out of the function (`Except.error`). -/
def get_ffmpeg_time (fs : FSView) (full_path : String) : Except Unit (Option PyDateTime) :=
  match fs.ffmpegProbe full_path with
  | none => .ok none
  | some tags =>
    FFMPEG_TAGS.foldlM
      (fun acc tag =>
        match tags tag with
        | none => .ok acc
        | some v =>
          if v = "" then .ok acc
          else
            match parse_iso v with
            | none => .error ()
            | some dt => .ok (get_min acc (some dt)))
      none

/-- `SLASH`, the path separator used by `concat_full_path`. -/
def SLASH : String := "\\"

/-- The `FileMetadata` dataclass: one mutable record per discovered file. -/
structure FileMetadata where
  no : Nat
  folder : Option String
  first_name : Option String
  actual_name : Option String
  actual_full_name : Option String
  actual_full_path : Option String
  date_taken : Option String
  new_name : Option String
  new_full_name : Option String
  new_full_path : Option String
  ext : Option String
  is_mutual : Bool
  mutual_order : Nat
  mutual_suffix : String
  has_conflict : Bool
  conflict_suffix : String
deriving Repr, DecidableEq

/-- The dataclass defaults: `FileMetadata()`. -/
def FileMetadata.init : FileMetadata :=
  { no := 0, folder := none, first_name := none, actual_name := none,
    actual_full_name := none, actual_full_path := none, date_taken := none,
    new_name := none, new_full_name := none, new_full_path := none,
    ext := none, is_mutual := false, mutual_order := 0, mutual_suffix := "",
    has_conflict := false, conflict_suffix := "" }

instance : Inhabited FileMetadata := ⟨FileMetadata.init⟩

/-- `concat_full_name`: `"file_name.ext"` when the extension is truthy,
otherwise `file_name` alone. -/
def concat_full_name (file_name : String) (ext : Option String) : String :=
  if truthyStr ext then file_name ++ "." ++ ext.getD "" else file_name

/-- `concat_full_path`: join folder and full file name with `SLASH` (the
optional third parameter of the source is never passed by any caller and
is omitted). -/
def concat_full_path (folder : String) (file_name : String) : String :=
  folder ++ SLASH ++ file_name

/-- `set_actual_name`: rebuild `actual_full_name` and `actual_full_path`
from `actual_name`, `ext` and `folder`; a falsy `actual_name` builds
nothing. -/
def set_actual_name (m : FileMetadata) : FileMetadata :=
  if !truthyStr m.actual_name then m
  else
    let afn := concat_full_name (m.actual_name.getD "") m.ext
    { m with actual_full_name := some afn,
             actual_full_path := some (concat_full_path (m.folder.getD "") afn) }

/-- `set_new_name`: rebuild `new_name`, `new_full_name` and
`new_full_path`.  The date is preferred, the current `new_name` is the
fallback; the mutual and conflict suffixes are appended to whichever was
chosen, and the result is stored back into `new_name` itself. -/
def set_new_name (m : FileMetadata) : FileMetadata :=
  if !truthyStr m.date_taken && !truthyStr m.new_name then m
  else
    let nn := (pyOr m.date_taken m.new_name).getD "" ++ m.mutual_suffix ++ m.conflict_suffix
    let nfn := concat_full_name nn m.ext
    { m with new_name := some nn,
             new_full_name := some nfn,
             new_full_path := some (concat_full_path (m.folder.getD "") nfn) }

/-- `set_file_metadata`: the controlled mutator.  Basic fields are
overwritten only by truthy arguments (`x or file_meta.x`); the mutual
fields only by a positive `mutual_order`; the conflict fields by any
non-`None` argument; then the derived names are rebuilt. -/
def set_file_metadata (m : FileMetadata)
    (folder first_name actual_name date_taken new_name ext : Option String)
    (is_mutual : Option Bool) (mutual_order : Nat)
    (has_conflict : Option Bool) (conflict_suffix : Option String)
    (no : Nat) : FileMetadata :=
  let m1 : FileMetadata := { m with
    no := if no ≠ 0 then no else m.no,
    folder := pyOr folder m.folder,
    first_name := pyOr first_name m.first_name,
    actual_name := pyOr actual_name m.actual_name,
    date_taken := pyOr date_taken m.date_taken,
    new_name := pyOr new_name m.new_name,
    ext := pyOr ext m.ext }
  let m2 := match is_mutual with
    | some b => { m1 with is_mutual := b }
    | none => m1
  let m3 := if 0 < mutual_order then
      { m2 with mutual_order := mutual_order,
                mutual_suffix := "-" ++ pad2 mutual_order }
    else m2
  let m4 := match has_conflict with
    | some b => { m3 with has_conflict := b }
    | none => m3
  let m5 := match conflict_suffix with
    | some s => { m4 with conflict_suffix := s }
    | none => m4
  set_new_name (set_actual_name m5)

/-- The `set_file_metadata` call of `fetch_list_files` (folder, first and
actual name, extension and sequence number). -/
def smd_discovery (m : FileMetadata) (folder first_name actual_name ext : String)
    (no : Nat) : FileMetadata :=
  set_file_metadata m (some folder) (some first_name) (some actual_name)
    none none (some ext) none 0 none none no

/-- The `set_file_metadata` call of the date loop of `process_files`. -/
def smd_date (m : FileMetadata) (date_taken : Option String) : FileMetadata :=
  set_file_metadata m none none none date_taken none none none 0 none none 0

/-- The `set_file_metadata` call of `search_mutual_names`. -/
def smd_mutual (m : FileMetadata) (mutual_order : Nat) : FileMetadata :=
  set_file_metadata m none none none none none none (some true) mutual_order none none 0

/-- The `set_file_metadata` call of `check_conflicts`. -/
def smd_conflict (m : FileMetadata) : FileMetadata :=
  set_file_metadata m none none none none none none none 0 (some true)
    (some (toString m.no)) 0

/-- The `set_file_metadata` call of `reset_conflicts`. -/
def smd_reset (m : FileMetadata) : FileMetadata :=
  set_file_metadata m none none none none none none none 0 (some false) (some "") 0

/-- The `set_file_metadata` call of `rename_file` after a rename. -/
def smd_actual (m : FileMetadata) : FileMetadata :=
  set_file_metadata m none none m.new_name none none none none 0 none none 0

/-- `find_date_taken`: EXIF for stills, ffmpeg for video containers,
nothing for other kinds, then `get_min` against the always-present OS
date.  The ffmpeg branch can raise (see `get_ffmpeg_time`). -/
def find_date_taken (fs : FSView) (m : FileMetadata) : Except Unit (Option PyDateTime) := do
  let full_path := m.actual_full_path.getD ""
  let date_taken ←
    if m.ext = some "jpg" ∨ m.ext = some "heic" then
      Except.ok (get_date_taken fs full_path)
    else if m.ext = some "mov" ∨ m.ext = some "mp4" ∨ m.ext = some "mpg" ∨ m.ext = some "gif" then
      get_ffmpeg_time fs full_path
    else
      Except.ok none
  Except.ok (get_min date_taken (get_os_date fs full_path))

/-- The per-record body of `check_conflicts`: query the frame snapshot for
any other record (different `no`) whose original full name equals this
record's proposed full name, interpolated as a string; on a match, flag the
conflict with the record's own `no` as suffix. -/
def conflict_step (snapshot : List FileMetadata) (m : FileMetadata) : FileMetadata :=
  if (snapshot.filter
      (fun o => o.actual_full_name == some (pyStr m.new_full_name) && o.no ≠ m.no)).isEmpty
  then m else smd_conflict m

/-- `check_conflicts`: skipped entirely in conflict-only mode, otherwise
every record is checked against the current frame snapshot. -/
def check_conflicts (snapshot : List FileMetadata) (list_metadata : List FileMetadata)
    (only_conflicts : Bool) : List FileMetadata :=
  if only_conflicts then list_metadata
  else list_metadata.map (conflict_step snapshot)

/-- The predicate of the `search_mutual_names` query
`date_taken == "{date_value}" and ext == "{ext}"`, with the date value
interpolated as a string. -/
def matches_group (date_value : Option String) (e : String) (o : FileMetadata) : Bool :=
  o.date_taken == some (pyStr date_value) && o.ext == some e

/-- Assign 1-based mutual orders, in frame order, to the live records whose
snapshot row matches the group; `idx` is the running counter of the source
loop. -/
def assign_mutual_orders (date_value : Option String) (e : String) :
    List (FileMetadata × FileMetadata) → Nat → List FileMetadata
  | [], _ => []
  | (s, l) :: rest, idx =>
    if matches_group date_value e s then
      smd_mutual l (idx + 1) :: assign_mutual_orders date_value e rest (idx + 1)
    else
      l :: assign_mutual_orders date_value e rest idx

/-- One `(date_value, ext)` iteration of `search_mutual_names`: groups of at
most one record are left untouched, larger groups get their members
numbered in frame order. -/
def mark_mutual_group (snapshot live : List FileMetadata) (date_value : Option String)
    (e : String) : List FileMetadata :=
  if (snapshot.filter (matches_group date_value e)).length ≤ 1 then live
  else assign_mutual_orders date_value e (snapshot.zip live) 0

/-- First-occurrence deduplication with an explicit seen set. -/
def dedupFirstAux (seen : List (Option String)) : List (Option String) → List (Option String)
  | [] => []
  | x :: xs =>
    if x ∈ seen then dedupFirstAux seen xs
    else x :: dedupFirstAux (x :: seen) xs

/-- First-occurrence deduplication, pandas `unique()`. -/
def dedupFirst (l : List (Option String)) : List (Option String) :=
  dedupFirstAux [] l

/-- `itertools.product(unique_dates, FILE_EXTENSIONS)`: dates outer,
extensions inner. -/
def date_ext_pairs (lst : List FileMetadata) : List (Option String × String) :=
  (dedupFirst (lst.map (·.date_taken))).flatMap
    (fun dv => FILE_EXTENSIONS.map (fun e => (dv, e)))

/-- `search_mutual_names`: skipped in conflict-only mode; otherwise iterate
over every unique date and supported extension, marking mutual groups.  The
queries run against the frame snapshot built just before the call (equal to
the list at entry), while the updates hit the live records; the final
`create_df_global_media` rebuild is reflected by the pipeline storing the
returned list as the new snapshot. -/
def search_mutual_names (list_metadata : List FileMetadata) (only_conflicts : Bool) :
    List FileMetadata :=
  if only_conflicts then list_metadata
  else
    (date_ext_pairs list_metadata).foldl
      (fun live p => mark_mutual_group list_metadata live p.1 p.2) list_metadata

/-- `reset_conflicts`: clear the conflict flag and suffix of every record
that currently has a conflict. -/
def reset_conflicts (list_metadata : List FileMetadata) : List FileMetadata :=
  list_metadata.map (fun m => if m.has_conflict then smd_reset m else m)

/-- `conflict_exists`: `has_conflict == True` query on the frame
snapshot. -/
def conflict_exists (snapshot : List FileMetadata) : Bool :=
  snapshot.any (·.has_conflict)

/-- What `rename_file` did to the filesystem for one record. -/
inductive RenameAction
  | skipped
  | identical
  | renamed (src dst : String)
deriving Repr, DecidableEq

/-- `rename_file`: skip non-conflicted records in conflict-only mode; raise
when the proposed full path is falsy; no filesystem call when the proposed
and original full names are equal; otherwise `os.rename`, which the caller
may see fail (`fsOk = false` models an `OSError`).  After a no-op or a
successful rename the metadata is updated with `actual_name =
meta.new_name`. -/
def rename_file (fsOk : Bool) (m : FileMetadata) (only_conflicts : Bool) :
    Except String (FileMetadata × RenameAction) :=
  if only_conflicts && !m.has_conflict then .ok (m, .skipped)
  else if !truthyStr m.new_full_path then
    .error (toString m.no ++ " - Error: File path cannot be none!")
  else if m.new_full_name == m.actual_full_name then .ok (smd_actual m, .identical)
  else if !fsOk then .error "os.rename raised"
  else .ok (smd_actual m, .renamed (pyStr m.actual_full_path) (pyStr m.new_full_path))

/-- The outcome `run_renamer` records for one file: either the action of a
completed `rename_file`, or the error line logged by the `except` branch. -/
inductive RenameOutcome
  | done (act : RenameAction)
  | failed (log : String)
deriving Repr, DecidableEq

/-- The error line of `run_renamer`'s `except` branch, carrying the
record's identity and both names. -/
def error_log (m : FileMetadata) : String :=
  toString m.no ++ "- " ++ pyStr m.actual_full_name ++ " - " ++ pyStr m.new_full_name ++
    ": Error: An error occurred while renaming file."

/-- `run_renamer`: every record is attempted; an exception from
`rename_file` is caught, logged and leaves the record unchanged, and the
loop proceeds to the next record.  (The per-extension log headers and the
`dict_file_counts` tallies drive logging only and are elided.) -/
def run_renamer (fsOk : FileMetadata → Bool) (list_metadata : List FileMetadata)
    (only_conflicts : Bool) : List (FileMetadata × RenameOutcome) :=
  list_metadata.map (fun m =>
    match rename_file (fsOk m) m only_conflicts with
    | .ok (m2, act) => (m2, RenameOutcome.done act)
    | .error _ => (m, RenameOutcome.failed (error_log m)))

/-- The live record list together with the `df_global_media` snapshot in
force. -/
structure PipelineState where
  records : List FileMetadata
  df : List FileMetadata
deriving Repr, DecidableEq

/-- The date loop of `process_files`: in full mode extract and format the
date (possibly raising, see `find_date_taken`), in conflict-only mode pass
`None`; either way run the record through `set_file_metadata`. -/
def resolve_dates (fs : FSView) (lst : List FileMetadata) (only_conflicts : Bool) :
    Except Unit (List FileMetadata) :=
  lst.mapM (fun m =>
    if only_conflicts then Except.ok (smd_date m none)
    else do
      let d ← find_date_taken fs m
      Except.ok (smd_date m (date_to_str d)))

/-- `process_files`: bail out of a conflict-only pass when the snapshot
shows no conflict; otherwise check conflicts against the current snapshot,
resolve dates, rebuild the snapshot (full mode only), run mutual-group
detection (which rebuilds the snapshot again in full mode), and rename.
(`find_file_counts` only feeds log headers and is elided.)  Returns the new
state and the per-record rename outcomes. -/
def process_files (fs : FSView) (fsOk : FileMetadata → Bool) (st : PipelineState)
    (only_conflicts : Bool) :
    Except Unit (PipelineState × List (FileMetadata × RenameOutcome)) :=
  if only_conflicts && !conflict_exists st.df then .ok (st, [])
  else
    match resolve_dates fs (check_conflicts st.df st.records only_conflicts) only_conflicts with
    | .error e => .error e
    | .ok recs2 =>
      .ok ({ records := (run_renamer fsOk (search_mutual_names recs2 only_conflicts)
                only_conflicts).map (·.1),
             df := if only_conflicts then st.df
                   else search_mutual_names recs2 only_conflicts },
           run_renamer fsOk (search_mutual_names recs2 only_conflicts) only_conflicts)

/-- `initialize_conflicts`: when the snapshot shows a conflict, clear the
flags of the live records (the snapshot itself is not rebuilt). -/
def initialize_conflicts (st : PipelineState) : PipelineState :=
  if !conflict_exists st.df then st
  else { st with records := reset_conflicts st.records }

/-- `file.split(".", 1)`: split at the first dot; a name without a dot
raises `ValueError` (uncaught in the source), modelled as `none`. -/
def split_first_dot (s : String) : Option (String × String) :=
  match splitOnChar '.' s.toList with
  | [_] => none
  | p :: rest => some (String.mk p, String.mk (joinWithChar '.' rest))
  | [] => none

/-- The per-file body of `fetch_list_files`: split name and extension
(lower-cased) and run discovery through `set_file_metadata` with `no = i +
1`. -/
def discover_one (root : String) (no : Nat) (file : String) : Except Unit FileMetadata :=
  match split_first_dot file with
  | none => .error ()
  | some (name, extension) =>
    .ok (smd_discovery FileMetadata.init root name name
      (String.mk (extension.toList.map Char.toLower)) no)

/-- The records built from one `dir` listing of one `(root, extension)`
pattern, numbered from 1 in listing order. -/
def discover_listing (root : String) (files : List String) :
    Except Unit (List FileMetadata) :=
  files.enum.mapM (fun p => discover_one root (p.1 + 1) p.2)

/-- `fetch_list_files`: walk the given roots; for each root and each
supported extension run the directory listing (a failing `dir` command is
an empty listing, its `CalledProcessError` being caught) and append the
discovered records.  The final `create_df_global_media` makes the snapshot
equal to the returned list. -/
def fetch_list_files (dirs : List (String × (String → List String))) :
    Except Unit (List FileMetadata) :=
  dirs.foldlM
    (fun acc rd =>
      FILE_EXTENSIONS.foldlM
        (fun acc2 e => do
          let metas ← discover_listing rd.1 (rd.2 e)
          Except.ok (acc2 ++ metas))
        acc)
    []

/-- The wiring of the source's main block: discovery, a full pass, conflict
initialization, then the conflict-only pass. -/
def media_renamer_run (fs : FSView) (fsOk : FileMetadata → Bool)
    (dirs : List (String × (String → List String))) :
    Except Unit (PipelineState × List (FileMetadata × RenameOutcome) ×
      List (FileMetadata × RenameOutcome)) :=
  match fetch_list_files dirs with
  | .error e => .error e
  | .ok recs =>
    match process_files fs fsOk { records := recs, df := recs } false with
    | .error e => .error e
    | .ok (st1, out1) =>
      match process_files fs fsOk (initialize_conflicts st1) true with
      | .error e => .error e
      | .ok (st3, out2) => .ok (st3, out1, out2)

/-! ### Statement helpers and concrete evaluation fixtures -/

/-- The EXIF tag values of a file that parsed successfully, in tag order. -/
def parsed_exif_dates (fs : FSView) (full_path : String) : List PyDateTime :=
  EXIF_TAGS.filterMap (fun t => (fs.exifTag full_path t).bind strptime_dt)

/-- Replace one EXIF tag of a view by a fixed value. -/
def override_exif (fs : FSView) (tag : String) (v : Option String) : FSView :=
  { fs with exifTag := fun p t => if t = tag then v else fs.exifTag p t }

/-- Whether an outcome performed a filesystem rename. -/
def is_rename_outcome : RenameOutcome → Bool
  | .done (.renamed _ _) => true
  | _ => false

/-- A view with no decoder metadata at all and fixed OS timestamps. -/
def bareFS : FSView :=
  { exifTag := fun _ _ => none,
    ffmpegProbe := fun _ => none,
    ctime := fun _ => ⟨2021, 5, 5, 5, 5, 5⟩,
    mtime := fun _ => ⟨2021, 6, 6, 6, 6, 6⟩ }

/-- The spec's earliest-wins example: `DateTimeOriginal` one day after
`DateTime`. -/
def fs_c5 : FSView :=
  { bareFS with exifTag := fun _ t =>
      if t = "EXIF DateTimeOriginal" then some "2020:01:02 10:00:00"
      else if t = "Image DateTime" then some "2020:01:01 09:00:00"
      else none }

/-- A view whose ffmpeg probe succeeds but reports an unparsable
`creation_time`. -/
def fs_bad_ffmpeg : FSView :=
  { bareFS with
    ffmpegProbe :=
      fun _ => some (fun t => if t = "creation_time" then some "garbage" else none) }

/-- A discovered `.mov` record, as `fetch_list_files` builds it. -/
def rec_mov : FileMetadata := smd_discovery FileMetadata.init "d" "v" "v" "mov" 1

/-- A discovered `.jpg` record, as `fetch_list_files` builds it. -/
def rec_jpg : FileMetadata := smd_discovery FileMetadata.init "d" "a" "a" "jpg" 1

/-- The spec's conflict example, record #5: a `.jpg` whose resolved date
proposes `20200101-090000.jpg`. -/
def rec5_c2 : FileMetadata :=
  smd_date (smd_discovery FileMetadata.init "d" "IMG_5" "IMG_5" "jpg" 5)
    (some "20200101-090000")

/-- The spec's conflict example, the frame snapshot holding record #2 whose
still-unrenamed original name is `20200101-090000.jpg`. -/
def snap_c2 : List FileMetadata :=
  [smd_discovery FileMetadata.init "d" "20200101-090000" "20200101-090000" "jpg" 2]

/-- A directory with one `.jpg` and one `.mov` file. -/
def dirs_c3 : List (String × (String → List String)) :=
  [("r", fun e => if e = "jpg" then ["a.jpg"] else if e = "mov" then ["b.mov"] else [])]

/-- A record with no date whose fallback `new_name` is `"fb"` and whose
mutual order is 1: first computation of the proposed name. -/
def rec_c4_first : FileMetadata :=
  set_file_metadata FileMetadata.init (some "d") none (some "a") none (some "fb")
    (some "jpg") none 1 none none 7

/-- The same record after one further (conflict-flag-only) update. -/
def rec_c4_second : FileMetadata :=
  set_file_metadata rec_c4_first none none none none none none none 0 (some false) none 0

/-- Three `.jpg` records and one `.mov` record sharing one resolved date. -/
def recs_c6 : List FileMetadata :=
  [smd_date (smd_discovery FileMetadata.init "d" "a" "a" "jpg" 1) (some "20200101-090000"),
   smd_date (smd_discovery FileMetadata.init "d" "b" "b" "jpg" 2) (some "20200101-090000"),
   smd_date (smd_discovery FileMetadata.init "d" "c" "c" "jpg" 3) (some "20200101-090000"),
   smd_date (smd_discovery FileMetadata.init "d" "v" "v" "mov" 1) (some "20200101-090000")]

/-- A record that is already correctly named: its proposed full name equals
its original full name. -/
def rec_noop : FileMetadata :=
  smd_date (smd_discovery FileMetadata.init "d" "20200101-090000" "20200101-090000" "jpg" 1)
    (some "20200101-090000")

/-- Three records whose proposed names differ from their original names. -/
def recs_c8 : List FileMetadata :=
  [smd_date (smd_discovery FileMetadata.init "d" "a" "a" "jpg" 1) (some "20200101-090001"),
   smd_date (smd_discovery FileMetadata.init "d" "b" "b" "jpg" 2) (some "20200101-090002"),
   smd_date (smd_discovery FileMetadata.init "d" "c" "c" "jpg" 3) (some "20200101-090003")]

/-- One directory holding a single `.jpg` file. -/
def dirs_c10 : List (String × (String → List String)) :=
  [("r", fun e => if e = "jpg" then ["a.jpg"] else [])]

/-- The discovery output of `dirs_c10`. -/
def fetched_c10 : List FileMetadata := [smd_discovery FileMetadata.init "r" "a" "a" "jpg" 1]

/-- The first (full) pass over `fetched_c10` with the bare view. -/
def run1_c10 : Except Unit (PipelineState × List (FileMetadata × RenameOutcome)) :=
  process_files bareFS (fun _ => true) { records := fetched_c10, df := fetched_c10 } false

/-- The state after the first pass of `run1_c10`. -/
def st1_c10 : PipelineState :=
  match run1_c10 with
  | .ok p => p.1
  | .error _ => { records := [], df := [] }

/-- The outcomes of the first pass of `run1_c10`. -/
def out1_c10 : List (FileMetadata × RenameOutcome) :=
  match run1_c10 with
  | .ok p => p.2
  | .error _ => []

/-- Equality of `Except` results is decidable, enabling concrete
evaluation of pipeline runs. -/
instance {e a : Type} [DecidableEq e] [DecidableEq a] : DecidableEq (Except e a) := fun x y =>
  match x, y with
  | .ok v, .ok w =>
    if h : v = w then isTrue (by rw [h]) else isFalse (fun hc => by cases hc; exact h rfl)
  | .error v, .error w =>
    if h : v = w then isTrue (by rw [h]) else isFalse (fun hc => by cases hc; exact h rfl)
  | .ok _, .error _ => isFalse (fun hc => by cases hc)
  | .error _, .ok _ => isFalse (fun hc => by cases hc)

/-! ### Field lemmas for the name builders and the mutator -/

theorem san_no (m : FileMetadata) : (set_actual_name m).no = m.no := by
  unfold set_actual_name; split <;> rfl

theorem san_folder (m : FileMetadata) : (set_actual_name m).folder = m.folder := by
  unfold set_actual_name; split <;> rfl

theorem san_first_name (m : FileMetadata) : (set_actual_name m).first_name = m.first_name := by
  unfold set_actual_name; split <;> rfl

theorem san_actual_name (m : FileMetadata) : (set_actual_name m).actual_name = m.actual_name := by
  unfold set_actual_name; split <;> rfl

theorem san_date_taken (m : FileMetadata) : (set_actual_name m).date_taken = m.date_taken := by
  unfold set_actual_name; split <;> rfl

theorem san_new_name (m : FileMetadata) : (set_actual_name m).new_name = m.new_name := by
  unfold set_actual_name; split <;> rfl

theorem san_new_full_name (m : FileMetadata) :
    (set_actual_name m).new_full_name = m.new_full_name := by
  unfold set_actual_name; split <;> rfl

theorem san_new_full_path (m : FileMetadata) :
    (set_actual_name m).new_full_path = m.new_full_path := by
  unfold set_actual_name; split <;> rfl

theorem san_ext (m : FileMetadata) : (set_actual_name m).ext = m.ext := by
  unfold set_actual_name; split <;> rfl

theorem san_is_mutual (m : FileMetadata) : (set_actual_name m).is_mutual = m.is_mutual := by
  unfold set_actual_name; split <;> rfl

theorem san_mutual_order (m : FileMetadata) :
    (set_actual_name m).mutual_order = m.mutual_order := by
  unfold set_actual_name; split <;> rfl

theorem san_mutual_suffix (m : FileMetadata) :
    (set_actual_name m).mutual_suffix = m.mutual_suffix := by
  unfold set_actual_name; split <;> rfl

theorem san_has_conflict (m : FileMetadata) :
    (set_actual_name m).has_conflict = m.has_conflict := by
  unfold set_actual_name; split <;> rfl

theorem san_conflict_suffix (m : FileMetadata) :
    (set_actual_name m).conflict_suffix = m.conflict_suffix := by
  unfold set_actual_name; split <;> rfl

theorem snn_no (m : FileMetadata) : (set_new_name m).no = m.no := by
  unfold set_new_name; split <;> rfl

theorem snn_folder (m : FileMetadata) : (set_new_name m).folder = m.folder := by
  unfold set_new_name; split <;> rfl

theorem snn_first_name (m : FileMetadata) : (set_new_name m).first_name = m.first_name := by
  unfold set_new_name; split <;> rfl

theorem snn_actual_name (m : FileMetadata) : (set_new_name m).actual_name = m.actual_name := by
  unfold set_new_name; split <;> rfl

theorem snn_actual_full_name (m : FileMetadata) :
    (set_new_name m).actual_full_name = m.actual_full_name := by
  unfold set_new_name; split <;> rfl

theorem snn_actual_full_path (m : FileMetadata) :
    (set_new_name m).actual_full_path = m.actual_full_path := by
  unfold set_new_name; split <;> rfl

theorem snn_date_taken (m : FileMetadata) : (set_new_name m).date_taken = m.date_taken := by
  unfold set_new_name; split <;> rfl

theorem snn_ext (m : FileMetadata) : (set_new_name m).ext = m.ext := by
  unfold set_new_name; split <;> rfl

theorem snn_is_mutual (m : FileMetadata) : (set_new_name m).is_mutual = m.is_mutual := by
  unfold set_new_name; split <;> rfl

theorem snn_mutual_order (m : FileMetadata) :
    (set_new_name m).mutual_order = m.mutual_order := by
  unfold set_new_name; split <;> rfl

theorem snn_mutual_suffix (m : FileMetadata) :
    (set_new_name m).mutual_suffix = m.mutual_suffix := by
  unfold set_new_name; split <;> rfl

theorem snn_has_conflict (m : FileMetadata) :
    (set_new_name m).has_conflict = m.has_conflict := by
  unfold set_new_name; split <;> rfl

theorem snn_conflict_suffix (m : FileMetadata) :
    (set_new_name m).conflict_suffix = m.conflict_suffix := by
  unfold set_new_name; split <;> rfl

theorem sfm_no (m : FileMetadata)
    (folder first_name actual_name date_taken new_name ext : Option String)
    (is_mutual : Option Bool) (mutual_order : Nat)
    (has_conflict : Option Bool) (conflict_suffix : Option String) (no : Nat) :
    (set_file_metadata m folder first_name actual_name date_taken new_name ext
      is_mutual mutual_order has_conflict conflict_suffix no).no
      = if no ≠ 0 then no else m.no := by
  unfold set_file_metadata
  cases is_mutual <;> cases has_conflict <;> cases conflict_suffix <;>
    simp [snn_no, san_no] <;> split <;> simp

theorem sfm_folder (m : FileMetadata)
    (folder first_name actual_name date_taken new_name ext : Option String)
    (is_mutual : Option Bool) (mutual_order : Nat)
    (has_conflict : Option Bool) (conflict_suffix : Option String) (no : Nat) :
    (set_file_metadata m folder first_name actual_name date_taken new_name ext
      is_mutual mutual_order has_conflict conflict_suffix no).folder
      = pyOr folder m.folder := by
  unfold set_file_metadata
  cases is_mutual <;> cases has_conflict <;> cases conflict_suffix <;>
    simp [snn_folder, san_folder] <;> split <;> simp

theorem sfm_actual_name (m : FileMetadata)
    (folder first_name actual_name date_taken new_name ext : Option String)
    (is_mutual : Option Bool) (mutual_order : Nat)
    (has_conflict : Option Bool) (conflict_suffix : Option String) (no : Nat) :
    (set_file_metadata m folder first_name actual_name date_taken new_name ext
      is_mutual mutual_order has_conflict conflict_suffix no).actual_name
      = pyOr actual_name m.actual_name := by
  unfold set_file_metadata
  cases is_mutual <;> cases has_conflict <;> cases conflict_suffix <;>
    simp [snn_actual_name, san_actual_name] <;> split <;> simp

theorem sfm_date_taken (m : FileMetadata)
    (folder first_name actual_name date_taken new_name ext : Option String)
    (is_mutual : Option Bool) (mutual_order : Nat)
    (has_conflict : Option Bool) (conflict_suffix : Option String) (no : Nat) :
    (set_file_metadata m folder first_name actual_name date_taken new_name ext
      is_mutual mutual_order has_conflict conflict_suffix no).date_taken
      = pyOr date_taken m.date_taken := by
  unfold set_file_metadata
  cases is_mutual <;> cases has_conflict <;> cases conflict_suffix <;>
    simp [snn_date_taken, san_date_taken] <;> split <;> simp

theorem sfm_ext (m : FileMetadata)
    (folder first_name actual_name date_taken new_name ext : Option String)
    (is_mutual : Option Bool) (mutual_order : Nat)
    (has_conflict : Option Bool) (conflict_suffix : Option String) (no : Nat) :
    (set_file_metadata m folder first_name actual_name date_taken new_name ext
      is_mutual mutual_order has_conflict conflict_suffix no).ext
      = pyOr ext m.ext := by
  unfold set_file_metadata
  cases is_mutual <;> cases has_conflict <;> cases conflict_suffix <;>
    simp [snn_ext, san_ext] <;> split <;> simp

theorem sfm_mutual_order (m : FileMetadata)
    (folder first_name actual_name date_taken new_name ext : Option String)
    (is_mutual : Option Bool) (mutual_order : Nat)
    (has_conflict : Option Bool) (conflict_suffix : Option String) (no : Nat) :
    (set_file_metadata m folder first_name actual_name date_taken new_name ext
      is_mutual mutual_order has_conflict conflict_suffix no).mutual_order
      = if 0 < mutual_order then mutual_order else m.mutual_order := by
  unfold set_file_metadata
  cases is_mutual <;> cases has_conflict <;> cases conflict_suffix <;>
    simp [snn_mutual_order, san_mutual_order] <;> split <;> simp

theorem sfm_mutual_suffix (m : FileMetadata)
    (folder first_name actual_name date_taken new_name ext : Option String)
    (is_mutual : Option Bool) (mutual_order : Nat)
    (has_conflict : Option Bool) (conflict_suffix : Option String) (no : Nat) :
    (set_file_metadata m folder first_name actual_name date_taken new_name ext
      is_mutual mutual_order has_conflict conflict_suffix no).mutual_suffix
      = if 0 < mutual_order then "-" ++ pad2 mutual_order else m.mutual_suffix := by
  unfold set_file_metadata
  cases is_mutual <;> cases has_conflict <;> cases conflict_suffix <;>
    simp [snn_mutual_suffix, san_mutual_suffix] <;> split <;> simp

theorem sfm_has_conflict (m : FileMetadata)
    (folder first_name actual_name date_taken new_name ext : Option String)
    (is_mutual : Option Bool) (mutual_order : Nat)
    (has_conflict : Option Bool) (conflict_suffix : Option String) (no : Nat) :
    (set_file_metadata m folder first_name actual_name date_taken new_name ext
      is_mutual mutual_order has_conflict conflict_suffix no).has_conflict
      = has_conflict.getD m.has_conflict := by
  unfold set_file_metadata
  cases is_mutual <;> cases has_conflict <;> cases conflict_suffix <;>
    simp [snn_has_conflict, san_has_conflict] <;> split <;> simp

theorem sfm_conflict_suffix (m : FileMetadata)
    (folder first_name actual_name date_taken new_name ext : Option String)
    (is_mutual : Option Bool) (mutual_order : Nat)
    (has_conflict : Option Bool) (conflict_suffix : Option String) (no : Nat) :
    (set_file_metadata m folder first_name actual_name date_taken new_name ext
      is_mutual mutual_order has_conflict conflict_suffix no).conflict_suffix
      = conflict_suffix.getD m.conflict_suffix := by
  unfold set_file_metadata
  cases is_mutual <;> cases has_conflict <;> cases conflict_suffix <;>
    simp [snn_conflict_suffix, san_conflict_suffix] <;> split <;> simp

theorem pyOr_of_truthy (a b : Option String) (h : truthyStr a = true) : pyOr a b = a := by
  unfold pyOr
  rw [if_pos h]

theorem pyOr_of_falsy (a b : Option String) (h : truthyStr a = false) : pyOr a b = b := by
  unfold pyOr
  rw [h]
  simp

theorem snn_unchanged (m : FileMetadata) (h1 : truthyStr m.date_taken = false)
    (h2 : truthyStr m.new_name = false) : set_new_name m = m := by
  unfold set_new_name
  simp [h1, h2]

theorem snn_of_truthy_date (m : FileMetadata) (h : truthyStr m.date_taken = true) :
    (set_new_name m).new_name
        = some (m.date_taken.getD "" ++ m.mutual_suffix ++ m.conflict_suffix) ∧
    (set_new_name m).new_full_name
        = some (concat_full_name
            (m.date_taken.getD "" ++ m.mutual_suffix ++ m.conflict_suffix) m.ext) ∧
    (set_new_name m).new_full_path
        = some (concat_full_path (m.folder.getD "")
            (concat_full_name
              (m.date_taken.getD "" ++ m.mutual_suffix ++ m.conflict_suffix) m.ext)) := by
  unfold set_new_name
  rw [if_neg (by simp [h])]
  simp [pyOr_of_truthy _ _ h]

/-- `set_file_metadata` is `set_new_name` of an intermediate record whose
relevant fields are the merged ones. -/
theorem sfm_eq_snn (m : FileMetadata)
    (folder first_name actual_name date_taken new_name ext : Option String)
    (is_mutual : Option Bool) (mutual_order : Nat)
    (has_conflict : Option Bool) (conflict_suffix : Option String) (no : Nat) :
    ∃ M : FileMetadata,
      set_file_metadata m folder first_name actual_name date_taken new_name ext
          is_mutual mutual_order has_conflict conflict_suffix no = set_new_name M ∧
      M.date_taken = pyOr date_taken m.date_taken ∧
      M.mutual_suffix
        = (if 0 < mutual_order then "-" ++ pad2 mutual_order else m.mutual_suffix) ∧
      M.conflict_suffix = conflict_suffix.getD m.conflict_suffix ∧
      M.ext = pyOr ext m.ext ∧
      M.folder = pyOr folder m.folder ∧
      M.new_name = pyOr new_name m.new_name ∧
      M.new_full_name = m.new_full_name ∧
      M.new_full_path = m.new_full_path := by
  unfold set_file_metadata
  refine ⟨_, rfl, ?_, ?_, ?_, ?_, ?_, ?_, ?_, ?_⟩ <;>
    (cases is_mutual <;> cases has_conflict <;> cases conflict_suffix <;>
      simp [san_date_taken, san_mutual_suffix, san_conflict_suffix, san_ext,
        san_folder, san_new_name, san_new_full_name, san_new_full_path] <;>
      split <;> simp)

/-- After any `set_file_metadata` whose merged date is truthy, the three
derived new-name fields are fully determined. -/
theorem sfm_new_parts (m : FileMetadata)
    (folder first_name actual_name date_taken new_name ext : Option String)
    (is_mutual : Option Bool) (mutual_order : Nat)
    (has_conflict : Option Bool) (conflict_suffix : Option String) (no : Nat)
    (h : truthyStr (pyOr date_taken m.date_taken) = true) :
    (set_file_metadata m folder first_name actual_name date_taken new_name ext
      is_mutual mutual_order has_conflict conflict_suffix no).new_name
      = some ((pyOr date_taken m.date_taken).getD ""
          ++ (if 0 < mutual_order then "-" ++ pad2 mutual_order else m.mutual_suffix)
          ++ conflict_suffix.getD m.conflict_suffix) ∧
    (set_file_metadata m folder first_name actual_name date_taken new_name ext
      is_mutual mutual_order has_conflict conflict_suffix no).new_full_name
      = some (concat_full_name
          ((pyOr date_taken m.date_taken).getD ""
            ++ (if 0 < mutual_order then "-" ++ pad2 mutual_order else m.mutual_suffix)
            ++ conflict_suffix.getD m.conflict_suffix)
          (pyOr ext m.ext)) ∧
    (set_file_metadata m folder first_name actual_name date_taken new_name ext
      is_mutual mutual_order has_conflict conflict_suffix no).new_full_path
      = some (concat_full_path ((pyOr folder m.folder).getD "")
          (concat_full_name
            ((pyOr date_taken m.date_taken).getD ""
              ++ (if 0 < mutual_order then "-" ++ pad2 mutual_order else m.mutual_suffix)
              ++ conflict_suffix.getD m.conflict_suffix)
            (pyOr ext m.ext))) := by
  obtain ⟨M, hEq, h1, h2, h3, h4, h5, h6, h7, h8⟩ :=
    sfm_eq_snn m folder first_name actual_name date_taken new_name ext
      is_mutual mutual_order has_conflict conflict_suffix no
  rw [hEq]
  have hM : truthyStr M.date_taken = true := by rw [h1]; exact h
  obtain ⟨g1, g2, g3⟩ := snn_of_truthy_date M hM
  rw [g1, g2, g3, h1, h2, h3, h4, h5]
  exact ⟨rfl, rfl, rfl⟩

/-- A `set_file_metadata` whose merged date and merged fallback name are
both falsy leaves the derived new-name fields untouched. -/
theorem sfm_new_unchanged (m : FileMetadata)
    (folder first_name actual_name date_taken new_name ext : Option String)
    (is_mutual : Option Bool) (mutual_order : Nat)
    (has_conflict : Option Bool) (conflict_suffix : Option String) (no : Nat)
    (hd : truthyStr (pyOr date_taken m.date_taken) = false)
    (hn : truthyStr (pyOr new_name m.new_name) = false) :
    (set_file_metadata m folder first_name actual_name date_taken new_name ext
      is_mutual mutual_order has_conflict conflict_suffix no).new_name
      = pyOr new_name m.new_name ∧
    (set_file_metadata m folder first_name actual_name date_taken new_name ext
      is_mutual mutual_order has_conflict conflict_suffix no).new_full_name
      = m.new_full_name ∧
    (set_file_metadata m folder first_name actual_name date_taken new_name ext
      is_mutual mutual_order has_conflict conflict_suffix no).new_full_path
      = m.new_full_path := by
  obtain ⟨M, hEq, h1, h2, h3, h4, h5, h6, h7, h8⟩ :=
    sfm_eq_snn m folder first_name actual_name date_taken new_name ext
      is_mutual mutual_order has_conflict conflict_suffix no
  rw [hEq, snn_unchanged M (by rw [h1]; exact hd) (by rw [h6]; exact hn)]
  exact ⟨h6, h7, h8⟩

theorem pyOr_none (b : Option String) : pyOr none b = b := rfl

theorem smd_date_no (m : FileMetadata) (d : Option String) : (smd_date m d).no = m.no := by
  unfold smd_date
  rw [sfm_no]
  simp

theorem smd_date_has_conflict (m : FileMetadata) (d : Option String) :
    (smd_date m d).has_conflict = m.has_conflict := by
  unfold smd_date
  rw [sfm_has_conflict]
  rfl

theorem smd_date_date_taken (m : FileMetadata) (d : Option String) :
    (smd_date m d).date_taken = pyOr d m.date_taken := by
  unfold smd_date
  rw [sfm_date_taken]

theorem smd_date_ext (m : FileMetadata) (d : Option String) : (smd_date m d).ext = m.ext := by
  unfold smd_date
  rw [sfm_ext, pyOr_none]

theorem smd_mutual_no (m : FileMetadata) (k : Nat) : (smd_mutual m k).no = m.no := by
  unfold smd_mutual
  rw [sfm_no]
  simp

theorem smd_mutual_has_conflict (m : FileMetadata) (k : Nat) :
    (smd_mutual m k).has_conflict = m.has_conflict := by
  unfold smd_mutual
  rw [sfm_has_conflict]
  rfl

theorem smd_mutual_date_taken (m : FileMetadata) (k : Nat) :
    (smd_mutual m k).date_taken = m.date_taken := by
  unfold smd_mutual
  rw [sfm_date_taken, pyOr_none]

theorem smd_mutual_ext (m : FileMetadata) (k : Nat) : (smd_mutual m k).ext = m.ext := by
  unfold smd_mutual
  rw [sfm_ext, pyOr_none]

theorem smd_conflict_no (m : FileMetadata) : (smd_conflict m).no = m.no := by
  unfold smd_conflict
  rw [sfm_no]
  simp

theorem smd_conflict_has_conflict (m : FileMetadata) :
    (smd_conflict m).has_conflict = true := by
  unfold smd_conflict
  rw [sfm_has_conflict]
  rfl

theorem smd_conflict_conflict_suffix (m : FileMetadata) :
    (smd_conflict m).conflict_suffix = toString m.no := by
  unfold smd_conflict
  rw [sfm_conflict_suffix]
  rfl

theorem smd_reset_no (m : FileMetadata) : (smd_reset m).no = m.no := by
  unfold smd_reset
  rw [sfm_no]
  simp

theorem smd_reset_has_conflict (m : FileMetadata) : (smd_reset m).has_conflict = false := by
  unfold smd_reset
  rw [sfm_has_conflict]
  rfl

theorem smd_actual_no (m : FileMetadata) : (smd_actual m).no = m.no := by
  unfold smd_actual
  rw [sfm_no]
  simp

theorem smd_actual_has_conflict (m : FileMetadata) :
    (smd_actual m).has_conflict = m.has_conflict := by
  unfold smd_actual
  rw [sfm_has_conflict]
  rfl

theorem smd_discovery_no (m : FileMetadata) (root name aname e : String) (k : Nat) :
    (smd_discovery m root name aname e k).no = if k ≠ 0 then k else m.no := by
  unfold smd_discovery
  rw [sfm_no]

/-- Discovery never resolves a date, never proposes a name and never flags
a conflict: those fields keep their dataclass defaults. -/
theorem smd_discovery_shape (root name aname e : String) (k : Nat) :
    (smd_discovery FileMetadata.init root name aname e k).new_name = none ∧
    (smd_discovery FileMetadata.init root name aname e k).new_full_name = none ∧
    (smd_discovery FileMetadata.init root name aname e k).new_full_path = none ∧
    (smd_discovery FileMetadata.init root name aname e k).has_conflict = false ∧
    (smd_discovery FileMetadata.init root name aname e k).date_taken = none := by
  unfold smd_discovery
  obtain ⟨u1, u2, u3⟩ := sfm_new_unchanged FileMetadata.init (some root) (some name)
    (some aname) none none (some e) none 0 none none k (by rfl) (by rfl)
  refine ⟨?_, ?_, ?_, ?_, ?_⟩
  · rw [u1]; rfl
  · rw [u2]; rfl
  · rw [u3]; rfl
  · rw [sfm_has_conflict]; rfl
  · rw [sfm_date_taken]; rfl

/-! ### Order lemmas for the datetime comparison -/

theorem dt_le_iff (a b : PyDateTime) : dt_le a b = true ↔
    (a.year < b.year ∨ (a.year = b.year ∧ (a.month < b.month ∨ (a.month = b.month ∧
      (a.day < b.day ∨ (a.day = b.day ∧ (a.hour < b.hour ∨ (a.hour = b.hour ∧
      (a.minute < b.minute ∨ (a.minute = b.minute ∧ a.second ≤ b.second)))))))))) := by
  unfold dt_le
  split_ifs <;> simp_all

theorem dt_le_refl (a : PyDateTime) : dt_le a a = true := by
  rw [dt_le_iff]
  omega

theorem dt_le_total (a b : PyDateTime) : dt_le a b = true ∨ dt_le b a = true := by
  rw [dt_le_iff, dt_le_iff]
  omega

theorem dt_le_trans (a b c : PyDateTime) (hab : dt_le a b = true)
    (hbc : dt_le b c = true) : dt_le a c = true := by
  rw [dt_le_iff] at hab hbc ⊢
  omega

theorem dt_min_eq_or (a b : PyDateTime) : dt_min a b = a ∨ dt_min a b = b := by
  unfold dt_min
  split
  · exact Or.inl rfl
  · exact Or.inr rfl

theorem dt_le_min_left (a b : PyDateTime) : dt_le (dt_min a b) a = true := by
  unfold dt_min
  split
  · exact dt_le_refl a
  · rename_i h
    rcases dt_le_total a b with h2 | h2
    · exact absurd h2 h
    · exact h2

theorem dt_le_min_right (a b : PyDateTime) : dt_le (dt_min a b) b = true := by
  unfold dt_min
  split
  · assumption
  · exact dt_le_refl b

/-! ### C5: EXIF extraction takes the earliest parsed tag -/

theorem exif_step_bind (acc : Option PyDateTime) (v : Option String) :
    exif_step acc v = (match v.bind strptime_dt with
      | none => acc
      | some d => get_min acc (some d)) := by
  cases v with
  | none => rfl
  | some raw => cases h : strptime_dt raw <;> simp [exif_step, h]

theorem gdt_spec (fs : FSView) (p : String) :
    (get_date_taken fs p = none ↔ parsed_exif_dates fs p = []) ∧
    (∀ dt, get_date_taken fs p = some dt →
      dt ∈ parsed_exif_dates fs p ∧ ∀ d ∈ parsed_exif_dates fs p, dt_le dt d = true) := by
  have hgd : get_date_taken fs p
      = exif_step (exif_step (exif_step none (fs.exifTag p "Image DateTime"))
          (fs.exifTag p "EXIF DateTimeOriginal")) (fs.exifTag p "EXIF DateTimeDigitized") := rfl
  rw [hgd, exif_step_bind, exif_step_bind, exif_step_bind]
  simp only [parsed_exif_dates, EXIF_TAGS, List.filterMap_cons, List.filterMap_nil]
  cases h1 : (fs.exifTag p "Image DateTime").bind strptime_dt <;>
    cases h2 : (fs.exifTag p "EXIF DateTimeOriginal").bind strptime_dt <;>
    cases h3 : (fs.exifTag p "EXIF DateTimeDigitized").bind strptime_dt <;>
    simp_all [get_min, dt_le_refl, dt_le_min_left, dt_le_min_right] <;>
    try exact dt_min_eq_or _ _
  rename_i a b c
  refine ⟨?_, dt_le_trans _ _ _ (dt_le_min_left _ _) (dt_le_min_left _ _),
    dt_le_trans _ _ _ (dt_le_min_left _ _) (dt_le_min_right _ _)⟩
  rcases dt_min_eq_or (dt_min a b) c with h | h
  · rcases dt_min_eq_or a b with h2 | h2
    · rw [h, h2]; exact Or.inl rfl
    · rw [h, h2]; exact Or.inr (Or.inl rfl)
  · rw [h]; exact Or.inr (Or.inr rfl)

theorem gdt_malformed (fs : FSView) (p tag bad : String)
    (hbad : strptime_dt bad = none) :
    get_date_taken (override_exif fs tag (some bad)) p
      = get_date_taken (override_exif fs tag none) p := by
  have hstep : ∀ acc, exif_step acc (some bad) = acc := by
    intro acc
    simp [exif_step, hbad]
  unfold get_date_taken override_exif EXIF_TAGS
  simp only [List.foldl]
  by_cases h1 : "Image DateTime" = tag <;>
    by_cases h2 : "EXIF DateTimeOriginal" = tag <;>
      by_cases h3 : "EXIF DateTimeDigitized" = tag <;>
        simp [h1, h2, h3, hstep, exif_step, hbad]

/-- C5: for a still image, `get_date_taken` returns the earliest of all
EXIF date tags that parsed successfully (the minimum of the parsed set,
not the first tag in priority order); an unparsable tag value behaves
exactly like an absent tag and does not abort extraction; and on the
spec's example (`DateTimeOriginal = 2020:01:02 10:00:00`, `DateTime =
2020:01:01 09:00:00`) the extracted date is 2020-01-01 09:00:00. -/
theorem c5_exif_earliest_wins :
    get_date_taken fs_c5 "p" = some ⟨2020, 1, 1, 9, 0, 0⟩ ∧
    (∀ fs p,
      (get_date_taken fs p = none ↔ parsed_exif_dates fs p = []) ∧
      (∀ dt, get_date_taken fs p = some dt →
        dt ∈ parsed_exif_dates fs p ∧ ∀ d ∈ parsed_exif_dates fs p, dt_le dt d = true)) ∧
    (∀ fs p tag bad, strptime_dt bad = none →
      get_date_taken (override_exif fs tag (some bad)) p
        = get_date_taken (override_exif fs tag none) p) :=
  ⟨by decide, fun fs p => gdt_spec fs p, fun fs p tag bad h => gdt_malformed fs p tag bad h⟩

/-- Witness for C5 at a concrete input: a malformed `Image DateTime` tag on
the example view is treated as absent. -/
theorem c5_exif_earliest_wins_witness :
    strptime_dt "not a date" = none ∧
    get_date_taken (override_exif fs_c5 "Image DateTime" (some "not a date")) "p"
      = get_date_taken (override_exif fs_c5 "Image DateTime" none) "p" :=
  ⟨by decide, c5_exif_earliest_wins.2.2 fs_c5 "p" "Image DateTime" "not a date" (by decide)⟩

/-! ### C1: date resolution and the unguarded ffmpeg parse -/

/-- C1 (code bug): `find_date_taken` does return
`min(decoder-extracted, OS fallback)` — and the OS fallback, the earlier of
creation and modification time, is always present — but only when
decoder-level extraction returns at all.  For a video file whose probe
succeeds and whose `creation_time` tag is present but unparsable, the
`datetime.fromisoformat` call of `get_ffmpeg_time` has no surrounding
`try` and the exception aborts resolution, so that file gets no resolved
date. -/
theorem c1_video_parse_failure_aborts_resolution :
    find_date_taken fs_bad_ffmpeg rec_mov = .error () ∧
    find_date_taken bareFS rec_jpg = .ok (some ⟨2021, 5, 5, 5, 5, 5⟩) ∧
    (∀ fs p, get_os_date fs p = some (dt_min (fs.ctime p) (fs.mtime p))) :=
  ⟨by decide, by decide, fun _ _ => rfl⟩

/-! ### C2: conflict flagging and the suffix format -/

/-- Counterexample to C2 as stated: on the spec's own example the record
is flagged with `conflictSuffix = "5"`, but the suffix is concatenated
with no separator, so the proposed full name is `20200101-0900005.jpg`,
not `20200101-090000-5.jpg`. -/
theorem c2_counterexample_conflict_suffix_has_no_dash :
    rec5_c2.new_full_name = some "20200101-090000.jpg" ∧
    snap_c2.map (·.actual_full_name) = [some "20200101-090000.jpg"] ∧
    snap_c2.map (·.no) = [2] ∧ rec5_c2.no = 5 ∧
    (conflict_step snap_c2 rec5_c2).has_conflict = true ∧
    (conflict_step snap_c2 rec5_c2).conflict_suffix = "5" ∧
    (conflict_step snap_c2 rec5_c2).new_full_name = some "20200101-0900005.jpg" ∧
    (conflict_step snap_c2 rec5_c2).new_full_name ≠ some "20200101-090000-5.jpg" := by
  decide

theorem concat_full_name_truthy (n : String) (ext : Option String)
    (h : truthyStr ext = true) : concat_full_name n ext = n ++ "." ++ ext.getD "" := by
  unfold concat_full_name
  rw [if_pos h]

theorem getD_map_lt {α β : Type} (f : α → β) (l : List α) (i : Nat) (h : i < l.length)
    (d : β) (d0 : α) : (l.map f).getD i d = f (l.getD i d0) := by
  induction l generalizing i with
  | nil => simp at h
  | cons x xs ih =>
    cases i with
    | zero => rfl
    | succ j =>
      simp only [List.map_cons, List.getD_cons_succ]
      exact ih j (by simpa using h)

/-- C2 (amended): when the conflict query finds another frame row
(different `no`) whose original full name equals this record's proposed
full name, the record is flagged `has_conflict = true` with
`conflict_suffix` equal to its own `no` as a string, and its proposed full
name becomes date ++ mutual suffix ++ `no` ++ "." ++ extension — the
conflict suffix is appended without a dash separator. -/
theorem c2_conflict_flagging_amended (snapshot lst : List FileMetadata) (i : Nat)
    (hi : i < lst.length)
    (hmatch : ∃ o ∈ snapshot,
      o.actual_full_name = some (pyStr (lst.getD i FileMetadata.init).new_full_name) ∧
      o.no ≠ (lst.getD i FileMetadata.init).no) :
    ((check_conflicts snapshot lst false).getD i FileMetadata.init).has_conflict = true ∧
    ((check_conflicts snapshot lst false).getD i FileMetadata.init).conflict_suffix
      = toString (lst.getD i FileMetadata.init).no ∧
    (truthyStr (lst.getD i FileMetadata.init).date_taken = true →
      truthyStr (lst.getD i FileMetadata.init).ext = true →
      ((check_conflicts snapshot lst false).getD i FileMetadata.init).new_full_name
        = some ((lst.getD i FileMetadata.init).date_taken.getD ""
            ++ (lst.getD i FileMetadata.init).mutual_suffix
            ++ toString (lst.getD i FileMetadata.init).no
            ++ "." ++ (lst.getD i FileMetadata.init).ext.getD "")) := by
  have hcc : check_conflicts snapshot lst false = lst.map (conflict_step snapshot) := rfl
  rw [hcc, getD_map_lt (conflict_step snapshot) lst i hi FileMetadata.init FileMetadata.init]
  set m := lst.getD i FileMetadata.init with hm
  have hstep : conflict_step snapshot m = smd_conflict m := by
    unfold conflict_step
    rw [if_neg]
    obtain ⟨o, ho, h1, h2⟩ := hmatch
    intro hemp
    rw [List.isEmpty_iff, List.filter_eq_nil_iff] at hemp
    exact hemp o ho (by simp [h1, h2])
  rw [hstep]
  refine ⟨smd_conflict_has_conflict m, smd_conflict_conflict_suffix m, ?_⟩
  intro hd he
  unfold smd_conflict
  obtain ⟨_, h2, _⟩ := sfm_new_parts m none none none none none none none 0 (some true)
    (some (toString m.no)) 0 (by rw [pyOr_none]; exact hd)
  rw [h2, pyOr_none, pyOr_none, concat_full_name_truthy _ _ he]
  simp

/-- Witness for C2 (amended) at the spec's example. -/
theorem c2_conflict_flagging_amended_witness :
    (0 < ([rec5_c2] : List FileMetadata).length ∧
      ∃ o ∈ snap_c2,
        o.actual_full_name = some (pyStr (([rec5_c2].getD 0 FileMetadata.init)).new_full_name) ∧
        o.no ≠ ([rec5_c2].getD 0 FileMetadata.init).no) ∧
    ((check_conflicts snap_c2 [rec5_c2] false).getD 0 FileMetadata.init).has_conflict = true ∧
    ((check_conflicts snap_c2 [rec5_c2] false).getD 0 FileMetadata.init).conflict_suffix = "5" ∧
    ((check_conflicts snap_c2 [rec5_c2] false).getD 0 FileMetadata.init).new_full_name
      = some "20200101-0900005.jpg" := by
  have h := c2_conflict_flagging_amended snap_c2 [rec5_c2] 0 (by decide) (by decide)
  refine ⟨⟨by decide, by decide⟩, h.1, ?_, ?_⟩
  · rw [h.2.1]; decide
  · have h3 := h.2.2 (by decide) (by decide)
    rw [h3]; decide

/-! ### C4: derived proposed-name recomputation -/

/-- Counterexample to C4 as stated: with no resolved date the fallback
`new_name` is itself the accumulator, so a second update appends the
suffixes again; after the second update the proposed full name is
`fb-01-01.jpg` while the claimed formula gives `fb-01.jpg`. -/
theorem c4_counterexample_fallback_suffix_accumulates :
    rec_c4_first.date_taken = none ∧
    rec_c4_first.new_full_name = some "fb-01.jpg" ∧
    rec_c4_second.date_taken = none ∧
    rec_c4_second.mutual_suffix = "-01" ∧
    rec_c4_second.conflict_suffix = "" ∧
    rec_c4_second.ext = some "jpg" ∧
    rec_c4_second.new_full_name = some "fb-01-01.jpg" ∧
    rec_c4_second.new_full_name
      ≠ some ("fb" ++ rec_c4_second.mutual_suffix ++ rec_c4_second.conflict_suffix ++ ".jpg") := by
  decide

/-- C4 (amended): after any `set_file_metadata` call that leaves the
record with a truthy resolved date and a truthy extension, the derived
proposed name is exactly date ++ mutual suffix ++ conflict suffix ++ "."
++ extension, and the proposed path is folder ++ SLASH ++ that name — the
derived fields are recomputed on every write and are never stale.  (When
the date is absent and a caller-assigned fallback `new_name` is in use,
the suffixes accumulate into `new_name` across successive updates and the
formula only holds for the update that first built the name, as the
counterexample shows.) -/
theorem c4_derived_name_recomputed_when_date_set (m : FileMetadata)
    (folder first_name actual_name date_taken new_name ext : Option String)
    (is_mutual : Option Bool) (mutual_order : Nat)
    (has_conflict : Option Bool) (conflict_suffix : Option String) (no : Nat)
    (hd : truthyStr (set_file_metadata m folder first_name actual_name date_taken new_name
        ext is_mutual mutual_order has_conflict conflict_suffix no).date_taken = true)
    (he : truthyStr (set_file_metadata m folder first_name actual_name date_taken new_name
        ext is_mutual mutual_order has_conflict conflict_suffix no).ext = true) :
    (set_file_metadata m folder first_name actual_name date_taken new_name ext
        is_mutual mutual_order has_conflict conflict_suffix no).new_full_name
      = some ((set_file_metadata m folder first_name actual_name date_taken new_name ext
            is_mutual mutual_order has_conflict conflict_suffix no).date_taken.getD ""
          ++ (set_file_metadata m folder first_name actual_name date_taken new_name ext
            is_mutual mutual_order has_conflict conflict_suffix no).mutual_suffix
          ++ (set_file_metadata m folder first_name actual_name date_taken new_name ext
            is_mutual mutual_order has_conflict conflict_suffix no).conflict_suffix
          ++ "." ++ (set_file_metadata m folder first_name actual_name date_taken new_name ext
            is_mutual mutual_order has_conflict conflict_suffix no).ext.getD "") ∧
    (set_file_metadata m folder first_name actual_name date_taken new_name ext
        is_mutual mutual_order has_conflict conflict_suffix no).new_full_path
      = some ((set_file_metadata m folder first_name actual_name date_taken new_name ext
            is_mutual mutual_order has_conflict conflict_suffix no).folder.getD ""
          ++ SLASH
          ++ ((set_file_metadata m folder first_name actual_name date_taken new_name ext
            is_mutual mutual_order has_conflict conflict_suffix no).date_taken.getD ""
          ++ (set_file_metadata m folder first_name actual_name date_taken new_name ext
            is_mutual mutual_order has_conflict conflict_suffix no).mutual_suffix
          ++ (set_file_metadata m folder first_name actual_name date_taken new_name ext
            is_mutual mutual_order has_conflict conflict_suffix no).conflict_suffix
          ++ "." ++ (set_file_metadata m folder first_name actual_name date_taken new_name ext
            is_mutual mutual_order has_conflict conflict_suffix no).ext.getD "")) := by
  rw [sfm_date_taken] at hd
  rw [sfm_ext] at he
  obtain ⟨_, h2, h3⟩ := sfm_new_parts m folder first_name actual_name date_taken new_name ext
    is_mutual mutual_order has_conflict conflict_suffix no hd
  rw [h2, h3, sfm_date_taken, sfm_mutual_suffix, sfm_ext, sfm_folder, sfm_conflict_suffix,
    concat_full_name_truthy _ _ he]
  unfold concat_full_path
  simp

/-- Witness for C4 (amended) at a concrete update. -/
theorem c4_derived_name_recomputed_when_date_set_witness :
    truthyStr (set_file_metadata FileMetadata.init (some "d") none (some "a")
        (some "20200101-090000") none (some "jpg") none 1 none none 7).date_taken = true ∧
    (set_file_metadata FileMetadata.init (some "d") none (some "a")
        (some "20200101-090000") none (some "jpg") none 1 none none 7).new_full_name
      = some "20200101-090000-01.jpg" := by
  have h := c4_derived_name_recomputed_when_date_set FileMetadata.init (some "d") none
    (some "a") (some "20200101-090000") none (some "jpg") none 1 none none 7
    (by decide) (by decide)
  refine ⟨by decide, ?_⟩
  rw [h.1]
  decide

/-! ### C7: identical names mean no filesystem rename -/

theorem rename_file_same_name (fsOkB : Bool) (m : FileMetadata) (oc : Bool)
    (h : m.new_full_name = m.actual_full_name) :
    rename_file fsOkB m oc = .ok (m, .skipped) ∨
    rename_file fsOkB m oc = .error (toString m.no ++ " - Error: File path cannot be none!") ∨
    rename_file fsOkB m oc = .ok (smd_actual m, .identical) := by
  unfold rename_file
  rw [h]
  simp only [beq_self_eq_true, if_true]
  split_ifs <;> simp

/-- C7: a record whose proposed full name equals its original full name
never triggers a filesystem rename; a batch in which every record is
already correctly named produces zero rename actions, so a second run of
the rename executor moves no files. -/
theorem c7_identical_names_no_rename :
    (∀ (fsOkB : Bool) (m : FileMetadata) (oc : Bool),
        m.new_full_name = m.actual_full_name →
        ∀ m2 s d, rename_file fsOkB m oc ≠ .ok (m2, .renamed s d)) ∧
    (∀ (fsOk : FileMetadata → Bool) (lst : List FileMetadata) (oc : Bool),
        (∀ m ∈ lst, m.new_full_name = m.actual_full_name) →
        (run_renamer fsOk lst oc).filter (fun r => is_rename_outcome r.2) = []) := by
  constructor
  · intro fsOkB m oc h m2 s d hc
    rcases rename_file_same_name fsOkB m oc h with h2 | h2 | h2 <;> rw [h2] at hc <;>
      simp at hc
  · intro fsOk lst oc h
    rw [List.filter_eq_nil_iff]
    intro r hr
    unfold run_renamer at hr
    rw [List.mem_map] at hr
    obtain ⟨m, hm, hrm⟩ := hr
    rcases rename_file_same_name (fsOk m) m oc (h m hm) with h2 | h2 | h2 <;>
      rw [h2] at hrm <;> rw [← hrm] <;> simp [is_rename_outcome]

/-- Witness for C7 at an already-correctly-named record. -/
theorem c7_identical_names_no_rename_witness :
    (∀ m ∈ [rec_noop], m.new_full_name = m.actual_full_name) ∧
    (run_renamer (fun _ => true) [rec_noop] false).filter
      (fun r => is_rename_outcome r.2) = [] :=
  ⟨by decide, c7_identical_names_no_rename.2 (fun _ => true) [rec_noop] false (by decide)⟩

/-! ### C8: per-file fault isolation in the batch loop -/

/-- C8: the executor attempts every record of the batch (the outcome list
has one entry per record); the outcome at one position depends only on
that record's own filesystem behaviour, so one record's failure cannot
affect any other; and a record whose `os.rename` raises is caught,
left unchanged and logged with its identity and both names, while the loop
continues. -/
theorem c8_per_file_fault_isolation :
    (∀ (fsOk : FileMetadata → Bool) (lst : List FileMetadata) (oc : Bool),
        (run_renamer fsOk lst oc).length = lst.length) ∧
    (∀ (fsOk1 fsOk2 : FileMetadata → Bool) (lst : List FileMetadata) (oc : Bool) (i : Nat),
        i < lst.length →
        fsOk1 (lst.getD i FileMetadata.init) = fsOk2 (lst.getD i FileMetadata.init) →
        (run_renamer fsOk1 lst oc).getD i (FileMetadata.init, .done .skipped)
          = (run_renamer fsOk2 lst oc).getD i (FileMetadata.init, .done .skipped)) ∧
    (∀ (fsOk : FileMetadata → Bool) (lst : List FileMetadata) (oc : Bool) (i : Nat),
        i < lst.length →
        (oc = true → (lst.getD i FileMetadata.init).has_conflict = true) →
        truthyStr (lst.getD i FileMetadata.init).new_full_path = true →
        (lst.getD i FileMetadata.init).new_full_name
          ≠ (lst.getD i FileMetadata.init).actual_full_name →
        fsOk (lst.getD i FileMetadata.init) = false →
        (run_renamer fsOk lst oc).getD i (FileMetadata.init, .done .skipped)
          = (lst.getD i FileMetadata.init,
              .failed (error_log (lst.getD i FileMetadata.init)))) := by
  refine ⟨fun fsOk lst oc => by simp [run_renamer], ?_, ?_⟩
  · intro fsOk1 fsOk2 lst oc i hi hagree
    unfold run_renamer
    rw [getD_map_lt _ lst i hi _ FileMetadata.init,
      getD_map_lt _ lst i hi _ FileMetadata.init, hagree]
  · intro fsOk lst oc i hi hoc hpath hdiff hfail
    unfold run_renamer
    rw [getD_map_lt _ lst i hi _ FileMetadata.init]
    set m := lst.getD i FileMetadata.init with hm
    have hskip : (oc && !m.has_conflict) = false := by
      cases oc with
      | false => rfl
      | true => rw [hoc rfl]; rfl
    have hneq : (m.new_full_name == m.actual_full_name) = false := by
      rw [beq_eq_false_iff_ne]
      exact hdiff
    unfold rename_file
    rw [hskip, hpath, hneq, hfail]
    rfl

/-- Witness for C8: in a three-record batch whose middle record's rename
raises, the other two records are still renamed. -/
theorem c8_per_file_fault_isolation_witness :
    (1 < recs_c8.length ∧
      truthyStr (recs_c8.getD 1 FileMetadata.init).new_full_path = true ∧
      (recs_c8.getD 1 FileMetadata.init).new_full_name
        ≠ (recs_c8.getD 1 FileMetadata.init).actual_full_name ∧
      (fun m : FileMetadata => !(m.no == 2)) (recs_c8.getD 1 FileMetadata.init) = false) ∧
    (run_renamer (fun m => !(m.no == 2)) recs_c8 false).getD 1
        (FileMetadata.init, .done .skipped)
      = (recs_c8.getD 1 FileMetadata.init,
          .failed (error_log (recs_c8.getD 1 FileMetadata.init))) ∧
    (run_renamer (fun m => !(m.no == 2)) recs_c8 false).map
        (fun r => is_rename_outcome r.2) = [true, false, true] := by
  refine ⟨⟨by decide, by decide, by decide, by decide⟩, ?_, by decide⟩
  exact c8_per_file_fault_isolation.2.2 (fun m => !(m.no == 2)) recs_c8 false 1
    (by decide) (by decide) (by decide) (by decide) (by decide)

/-! ### C9: the fail-fast check on unset proposed paths -/

/-- C9: for a record not skipped by the conflict-only mode and whose
`os.rename` would succeed, `rename_file` raises exactly when the proposed
full path is falsy; an update that supplies neither a date nor a fallback
name leaves an unbuilt proposed path unbuilt; and a record with no
proposed path is never renamed on disk — its outcome in the batch loop is
the logged failure. -/
theorem c9_error_iff_path_unset :
    (∀ (m : FileMetadata) (oc : Bool), (oc = true → m.has_conflict = true) →
      ((∃ e, rename_file true m oc = .error e) ↔ truthyStr m.new_full_path = false)) ∧
    (∀ (m : FileMetadata)
        (folder first_name actual_name date_taken new_name ext : Option String)
        (is_mutual : Option Bool) (mutual_order : Nat)
        (has_conflict : Option Bool) (conflict_suffix : Option String) (no : Nat),
        m.new_full_path = none →
        truthyStr (pyOr date_taken m.date_taken) = false →
        truthyStr (pyOr new_name m.new_name) = false →
        (set_file_metadata m folder first_name actual_name date_taken new_name ext
          is_mutual mutual_order has_conflict conflict_suffix no).new_full_path = none) ∧
    (∀ (fsOk : FileMetadata → Bool) (lst : List FileMetadata) (oc : Bool) (i : Nat),
        i < lst.length →
        truthyStr (lst.getD i FileMetadata.init).new_full_path = false →
        is_rename_outcome
          ((run_renamer fsOk lst oc).getD i (FileMetadata.init, .done .skipped)).2 = false) := by
  refine ⟨?_, ?_, ?_⟩
  · intro m oc hoc
    have hskip : (oc && !m.has_conflict) = false := by
      cases oc with
      | false => rfl
      | true => rw [hoc rfl]; rfl
    unfold rename_file
    rw [hskip]
    simp only [Bool.false_eq_true, if_false]
    constructor
    · intro ⟨e, he⟩
      by_contra hcon
      rw [Bool.not_eq_false] at hcon
      rw [hcon] at he
      simp only [Bool.not_true, Bool.false_eq_true, if_false] at he
      split_ifs at he
    · intro hfalse
      rw [hfalse]
      exact ⟨_, rfl⟩
  · intro m folder first_name actual_name date_taken new_name ext is_mutual mutual_order
      has_conflict conflict_suffix no hnone hd hn
    obtain ⟨_, _, h3⟩ := sfm_new_unchanged m folder first_name actual_name date_taken
      new_name ext is_mutual mutual_order has_conflict conflict_suffix no hd hn
    rw [h3, hnone]
  · intro fsOk lst oc i hi hpath
    unfold run_renamer
    rw [getD_map_lt _ lst i hi _ FileMetadata.init]
    set m := lst.getD i FileMetadata.init with hm
    unfold rename_file
    split_ifs with h1 h2 h3 h4 <;> simp_all [is_rename_outcome]

/-- Witness for C9 at a freshly discovered record, whose proposed path was
never built. -/
theorem c9_error_iff_path_unset_witness :
    ((∃ e, rename_file true rec_jpg false = .error e)
      ↔ truthyStr rec_jpg.new_full_path = false) ∧
    truthyStr rec_jpg.new_full_path = false ∧
    is_rename_outcome
      ((run_renamer (fun _ => true) [rec_jpg] false).getD 0
        (FileMetadata.init, .done .skipped)).2 = false := by
  refine ⟨?_, by decide, ?_⟩
  · exact c9_error_iff_path_unset.1 rec_jpg false (by decide)
  · exact c9_error_iff_path_unset.2.2 (fun _ => true) [rec_jpg] false 0 (by decide) (by decide)

/-! ### C3: sequence numbers per listing, and their immutability -/

theorem discover_one_no (root : String) (n : Nat) (file : String) (m : FileMetadata)
    (hn : n ≠ 0) (h : discover_one root n file = .ok m) : m.no = n := by
  unfold discover_one at h
  cases hs : split_first_dot file with
  | none => rw [hs] at h; simp at h
  | some p =>
    rw [hs] at h
    cases h
    rw [smd_discovery_no, if_pos hn]

/-- `mapM` over `Except`, unfolded to constructor matches. -/
theorem except_mapM_cons {ε α β : Type} (f : α → Except ε β) (a : α) (l : List α) :
    (a :: l).mapM f = (match f a with
      | .error e => .error e
      | .ok b =>
        match l.mapM f with
        | .error e => .error e
        | .ok bs => .ok (b :: bs)) := by
  rw [List.mapM_cons]
  cases f a <;> cases l.mapM f <;> rfl

theorem discover_listing_aux (root : String) :
    ∀ (k : Nat) (files : List String) (metas : List FileMetadata),
      (files.enumFrom k).mapM (fun p => discover_one root (p.1 + 1) p.2) = .ok metas →
      metas.map (·.no) = List.range' (k + 1) files.length := by
  intro k files
  induction files generalizing k with
  | nil =>
    intro metas h
    cases h
    rfl
  | cons f fs ih =>
    intro metas h
    rw [show (f :: fs).enumFrom k = (k, f) :: fs.enumFrom (k + 1) from rfl,
      except_mapM_cons] at h
    cases h1 : discover_one root (k + 1) f with
    | error e => rw [h1] at h; simp at h
    | ok m =>
      rw [h1] at h
      cases h2 : (fs.enumFrom (k + 1)).mapM (fun p => discover_one root (p.1 + 1) p.2) with
      | error e => rw [h2] at h; simp at h
      | ok ms =>
        rw [h2] at h
        simp only [Except.ok.injEq] at h
        rw [← h, List.length_cons, List.range'_succ, List.map_cons,
          discover_one_no root (k + 1) f m (Nat.succ_ne_zero k) h1, ih (k + 1) ms h2]

/-- Generic transport of a per-record observation through a successful
`mapM`. -/
theorem mapM_ok_map {α β γ : Type} {ε : Type} (f : α → Except ε β) (g : β → γ) (g2 : α → γ)
    (hfg : ∀ a b, f a = .ok b → g b = g2 a) :
    ∀ (l : List α) (l2 : List β), l.mapM f = .ok l2 → l2.map g = l.map g2 := by
  intro l
  induction l with
  | nil =>
    intro l2 h
    cases h
    rfl
  | cons a l ih =>
    intro l2 h
    rw [except_mapM_cons] at h
    cases h1 : f a with
    | error e => rw [h1] at h; simp at h
    | ok b =>
      rw [h1] at h
      cases h2 : l.mapM f with
      | error e => rw [h2] at h; simp at h
      | ok bs =>
        rw [h2] at h
        simp only [Except.ok.injEq] at h
        rw [← h, List.map_cons, List.map_cons, hfg a b h1, ih bs h2]

theorem conflict_step_no (snap : List FileMetadata) (m : FileMetadata) :
    (conflict_step snap m).no = m.no := by
  unfold conflict_step
  split
  · rfl
  · exact smd_conflict_no m

theorem check_conflicts_map {γ : Type} (g : FileMetadata → γ)
    (hg : ∀ m, g (smd_conflict m) = g m) (snap lst : List FileMetadata) (oc : Bool) :
    (check_conflicts snap lst oc).map g = lst.map g := by
  unfold check_conflicts
  split
  · rfl
  · rw [List.map_map]
    apply List.map_congr_left
    intro m _
    simp only [Function.comp_apply]
    unfold conflict_step
    split
    · rfl
    · exact hg m

theorem except_ok_bind {ε α β : Type} (a : α) (f : α → Except ε β) :
    (Except.ok a >>= f) = f a := rfl

theorem except_error_bind {ε α β : Type} (e : ε) (f : α → Except ε β) :
    ((Except.error e : Except ε α) >>= f) = Except.error e := rfl

theorem resolve_dates_map {γ : Type} (g : FileMetadata → γ)
    (hg : ∀ m d, g (smd_date m d) = g m) (fs : FSView) (lst l2 : List FileMetadata)
    (oc : Bool) (h : resolve_dates fs lst oc = .ok l2) : l2.map g = lst.map g := by
  unfold resolve_dates at h
  refine mapM_ok_map _ g g ?_ lst l2 h
  intro m r hr
  split_ifs at hr
  · cases hr
    exact hg m none
  · cases hfd : find_date_taken fs m with
    | error e =>
      rw [hfd, except_error_bind] at hr
      exact Except.noConfusion hr
    | ok d =>
      rw [hfd, except_ok_bind] at hr
      simp only [Except.ok.injEq] at hr
      rw [← hr]
      exact hg m (date_to_str d)

theorem assign_map {γ : Type} (g : FileMetadata → γ)
    (hg : ∀ m k, g (smd_mutual m k) = g m) (dv : Option String) (e : String) :
    ∀ (pairs : List (FileMetadata × FileMetadata)) (idx : Nat),
      (assign_mutual_orders dv e pairs idx).map g = pairs.map (fun p => g p.2) := by
  intro pairs
  induction pairs with
  | nil => intro idx; rfl
  | cons p ps ih =>
    intro idx
    obtain ⟨s, l⟩ := p
    unfold assign_mutual_orders
    split
    · rw [List.map_cons, List.map_cons, hg, ih]
    · rw [List.map_cons, List.map_cons, ih]

theorem mark_map {γ : Type} (g : FileMetadata → γ)
    (hg : ∀ m k, g (smd_mutual m k) = g m) (snap live : List FileMetadata)
    (dv : Option String) (e : String) (hlen : live.length = snap.length) :
    (mark_mutual_group snap live dv e).map g = live.map g := by
  unfold mark_mutual_group
  split
  · rfl
  · rw [assign_map g hg]
    have hz : (snap.zip live).map (fun p => g p.2)
        = ((snap.zip live).map Prod.snd).map g := by
      rw [List.map_map]
      rfl
    rw [hz, List.map_snd_zip snap live (le_of_eq hlen)]

theorem search_mutual_map {γ : Type} (g : FileMetadata → γ)
    (hg : ∀ m k, g (smd_mutual m k) = g m) (lst : List FileMetadata) (oc : Bool) :
    (search_mutual_names lst oc).map g = lst.map g := by
  unfold search_mutual_names
  split
  · rfl
  · have key : ∀ (ps : List (Option String × String)) (live : List FileMetadata),
        live.map g = lst.map g →
        (ps.foldl (fun live p => mark_mutual_group lst live p.1 p.2) live).map g
          = lst.map g := by
      intro ps
      induction ps with
      | nil => intro live h; exact h
      | cons p ps ih =>
        intro live h
        rw [List.foldl_cons]
        refine ih _ ?_
        rw [mark_map g hg lst live p.1 p.2 ?_, h]
        have := congrArg List.length h
        simpa using this
    exact key (date_ext_pairs lst) lst rfl

theorem rename_entry_map {γ : Type} (g : FileMetadata → γ)
    (hg : ∀ m, g (smd_actual m) = g m) (fsOkB : Bool) (m : FileMetadata) (oc : Bool) :
    g (match rename_file fsOkB m oc with
        | .ok (m2, act) => (m2, RenameOutcome.done act)
        | .error _ => (m, RenameOutcome.failed (error_log m))).1 = g m := by
  unfold rename_file
  split_ifs <;> simp [hg]

theorem run_renamer_records_map {γ : Type} (g : FileMetadata → γ)
    (hg : ∀ m, g (smd_actual m) = g m) (fsOk : FileMetadata → Bool)
    (lst : List FileMetadata) (oc : Bool) :
    ((run_renamer fsOk lst oc).map (·.1)).map g = lst.map g := by
  unfold run_renamer
  rw [List.map_map, List.map_map]
  apply List.map_congr_left
  intro m _
  exact rename_entry_map g hg (fsOk m) m oc

/-- Any per-record observation preserved by the four mutator calls of the
pipeline survives a whole `process_files` pass. -/
theorem process_files_records_map {γ : Type} (g : FileMetadata → γ)
    (h_conf : ∀ m, g (smd_conflict m) = g m)
    (h_date : ∀ m d, g (smd_date m d) = g m)
    (h_mut : ∀ m k, g (smd_mutual m k) = g m)
    (h_act : ∀ m, g (smd_actual m) = g m)
    (fs : FSView) (fsOk : FileMetadata → Bool) (st : PipelineState) (oc : Bool)
    (st2 : PipelineState) (outs : List (FileMetadata × RenameOutcome))
    (h : process_files fs fsOk st oc = .ok (st2, outs)) :
    st2.records.map g = st.records.map g := by
  unfold process_files at h
  split_ifs at h
  · cases h
    rfl
  all_goals
    cases hrd : resolve_dates fs (check_conflicts st.df st.records oc) oc with
    | error e =>
      rw [hrd] at h
      exact Except.noConfusion h
    | ok recs2 =>
      rw [hrd] at h
      simp only [Except.ok.injEq, Prod.mk.injEq] at h
      obtain ⟨h1, _⟩ := h
      rw [← h1]
      simp only
      rw [run_renamer_records_map g h_act, search_mutual_map g h_mut,
        resolve_dates_map g h_date fs _ recs2 oc hrd, check_conflicts_map g h_conf]

/-- C3 (amended): within each `(directory, extension)` dir listing, the
sequence numbers are exactly 1..k in listing order — unique there — and
every later pipeline pass preserves every record's `no` unchanged (the
mutators always pass `no = 0`, which the falsy-guard keeps); but `no`
restarts at 1 for each listing, so it is not unique across a batch that
spans several extensions or directories. -/
theorem c3_no_per_listing_unique_and_immutable :
    (∀ (root : String) (files : List String) (metas : List FileMetadata),
        discover_listing root files = .ok metas →
        metas.map (·.no) = List.range' 1 files.length ∧ (metas.map (·.no)).Nodup) ∧
    (∀ (fs : FSView) (fsOk : FileMetadata → Bool) (st : PipelineState) (oc : Bool)
        (st2 : PipelineState) (outs : List (FileMetadata × RenameOutcome)),
        process_files fs fsOk st oc = .ok (st2, outs) →
        st2.records.map (·.no) = st.records.map (·.no)) := by
  constructor
  · intro root files metas h
    have h2 := discover_listing_aux root 0 files metas h
    rw [Nat.zero_add] at h2
    exact ⟨h2, by rw [h2]; exact List.nodup_range' _ _⟩
  · intro fs fsOk st oc st2 outs h
    exact process_files_records_map (·.no) smd_conflict_no (fun m d => smd_date_no m d)
      (fun m k => smd_mutual_no m k) smd_actual_no fs fsOk st oc st2 outs h

/-- Witness for C3 (amended) on a concrete two-file listing. -/
theorem c3_no_per_listing_unique_and_immutable_witness :
    discover_listing "r" ["a.jpg", "b.jpg"]
      = .ok [smd_discovery FileMetadata.init "r" "a" "a" "jpg" 1,
             smd_discovery FileMetadata.init "r" "b" "b" "jpg" 2] ∧
    ([smd_discovery FileMetadata.init "r" "a" "a" "jpg" 1,
      smd_discovery FileMetadata.init "r" "b" "b" "jpg" 2].map (·.no))
        = List.range' 1 ["a.jpg", "b.jpg"].length ∧
    ([smd_discovery FileMetadata.init "r" "a" "a" "jpg" 1,
      smd_discovery FileMetadata.init "r" "b" "b" "jpg" 2].map (·.no)).Nodup := by
  have h := c3_no_per_listing_unique_and_immutable.1 "r" ["a.jpg", "b.jpg"]
    [smd_discovery FileMetadata.init "r" "a" "a" "jpg" 1,
     smd_discovery FileMetadata.init "r" "b" "b" "jpg" 2] (by decide)
  exact ⟨by decide, h.1, h.2⟩

/-- Counterexample to C3 as stated: a batch holding one `.jpg` and one
`.mov` file in the same directory gives both records `no = 1`. -/
theorem c3_counterexample_no_not_unique_across_extensions :
    (fetch_list_files dirs_c3).map (fun l => l.map (·.no)) = .ok [1, 1] ∧
    ¬ ([1, 1] : List Nat).Nodup := by
  decide

/-! ### C10: the wiring makes conflict detection a permanent no-op -/

/-- Outputs of a successful `mapM` all come from some input. -/
theorem mapM_ok_mem {α β : Type} {ε : Type} (f : α → Except ε β) :
    ∀ (l : List α) (l2 : List β), l.mapM f = .ok l2 →
      ∀ b ∈ l2, ∃ a ∈ l, f a = .ok b := by
  intro l
  induction l with
  | nil =>
    intro l2 h
    cases h
    intro b hb
    simp at hb
  | cons a l ih =>
    intro l2 h
    rw [except_mapM_cons] at h
    cases h1 : f a with
    | error e => rw [h1] at h; simp at h
    | ok b =>
      rw [h1] at h
      cases h2 : l.mapM f with
      | error e => rw [h2] at h; simp at h
      | ok bs =>
        rw [h2] at h
        simp only [Except.ok.injEq] at h
        rw [← h]
        intro c hc
        rcases List.mem_cons.mp hc with hcb | hcbs
        · exact ⟨a, List.mem_cons_self a l, by rw [h1, hcb]⟩
        · obtain ⟨a2, ha2, hfa2⟩ := ih bs h2 c hcbs
          exact ⟨a2, List.mem_cons_of_mem a ha2, hfa2⟩

theorem discover_one_shape (root : String) (k : Nat) (file : String) (m : FileMetadata)
    (h : discover_one root k file = .ok m) :
    m.new_full_name = none ∧ m.has_conflict = false := by
  unfold discover_one at h
  cases hs : split_first_dot file with
  | none => rw [hs] at h; simp at h
  | some p =>
    rw [hs] at h
    cases h
    obtain ⟨_, h2, _, h4, _⟩ := smd_discovery_shape root p.1 p.1
      (String.mk (p.2.toList.map Char.toLower)) k
    exact ⟨h2, h4⟩

/-- Every record produced by discovery has no proposed name and no
conflict flag. -/
theorem fetch_shape (dirs : List (String × (String → List String)))
    (recs : List FileMetadata) (h : fetch_list_files dirs = .ok recs) :
    ∀ m ∈ recs, m.new_full_name = none ∧ m.has_conflict = false := by
  have hinner : ∀ (rd : String × (String → List String)) (exts : List String)
      (acc acc2 : List FileMetadata), (∀ m ∈ acc, m.new_full_name = none ∧ m.has_conflict = false) →
      exts.foldlM (fun acc2 e => do
          let metas ← discover_listing rd.1 (rd.2 e)
          Except.ok (acc2 ++ metas)) acc = .ok acc2 →
      ∀ m ∈ acc2, m.new_full_name = none ∧ m.has_conflict = false := by
    intro rd exts
    induction exts with
    | nil =>
      intro acc acc2 hacc hfold
      cases hfold
      exact hacc
    | cons e es ih =>
      intro acc acc2 hacc hfold
      rw [List.foldlM_cons] at hfold
      cases hdl : discover_listing rd.1 (rd.2 e) with
      | error err =>
        rw [show (do
            let metas ← discover_listing rd.1 (rd.2 e)
            Except.ok (acc ++ metas)) = (Except.error err : Except Unit (List FileMetadata))
          from by rw [hdl]; rfl, except_error_bind] at hfold
        exact Except.noConfusion hfold
      | ok metas =>
        rw [show (do
            let metas ← discover_listing rd.1 (rd.2 e)
            Except.ok (acc ++ metas)) = (Except.ok (acc ++ metas) : Except Unit (List FileMetadata))
          from by rw [hdl]; rfl, except_ok_bind] at hfold
        refine ih (acc ++ metas) acc2 ?_ hfold
        intro m hm
        rcases List.mem_append.mp hm with h1 | h1
        · exact hacc m h1
        · obtain ⟨p, _, hp⟩ := mapM_ok_mem _ _ metas hdl m h1
          exact discover_one_shape rd.1 (p.1 + 1) p.2 m hp
  have houter : ∀ (ds : List (String × (String → List String)))
      (acc acc2 : List FileMetadata), (∀ m ∈ acc, m.new_full_name = none ∧ m.has_conflict = false) →
      ds.foldlM (fun acc rd => FILE_EXTENSIONS.foldlM (fun acc2 e => do
          let metas ← discover_listing rd.1 (rd.2 e)
          Except.ok (acc2 ++ metas)) acc) acc = .ok acc2 →
      ∀ m ∈ acc2, m.new_full_name = none ∧ m.has_conflict = false := by
    intro ds
    induction ds with
    | nil =>
      intro acc acc2 hacc hfold
      cases hfold
      exact hacc
    | cons rd ds ih =>
      intro acc acc2 hacc hfold
      rw [List.foldlM_cons] at hfold
      cases hfe : FILE_EXTENSIONS.foldlM (fun acc2 e => do
          let metas ← discover_listing rd.1 (rd.2 e)
          Except.ok (acc2 ++ metas)) acc with
      | error err =>
        rw [hfe, except_error_bind] at hfold
        exact Except.noConfusion hfold
      | ok acc3 =>
        rw [hfe, except_ok_bind] at hfold
        exact ih acc3 acc2 (hinner rd FILE_EXTENSIONS acc acc3 hacc hfe) hfold
  exact houter dirs [] recs (by intro m hm; simp at hm) h

/-- With all proposed names still unset and no frame row literally named
`"None"`, the full-mode conflict check flags nothing. -/
theorem check_conflicts_noflag (snap lst : List FileMetadata)
    (hlst : ∀ m ∈ lst, m.new_full_name = none)
    (hsnap : ∀ o ∈ snap, o.actual_full_name ≠ some "None") :
    check_conflicts snap lst false = lst := by
  have hstep : ∀ m ∈ lst, conflict_step snap m = m := by
    intro m hm
    unfold conflict_step
    rw [if_pos]
    rw [List.isEmpty_iff, List.filter_eq_nil_iff]
    intro o ho
    rw [hlst m hm]
    simp only [pyStr, Bool.and_eq_true, beq_iff_eq, decide_eq_true_eq, not_and]
    intro hcontra
    exact absurd hcontra (hsnap o ho)
  show lst.map (conflict_step snap) = lst
  calc lst.map (conflict_step snap) = lst.map id := List.map_congr_left hstep
    _ = lst := List.map_id lst

theorem all_eq_of_map_eq {γ : Type} (g : FileMetadata → γ) (c : γ)
    (l1 l2 : List FileMetadata) (hmap : l2.map g = l1.map g)
    (h1 : ∀ m ∈ l1, g m = c) : ∀ m ∈ l2, g m = c := by
  intro m hm
  have hmem : g m ∈ l2.map g := List.mem_map_of_mem g hm
  rw [hmap] at hmem
  obtain ⟨a, ha, hga⟩ := List.mem_map.mp hmem
  rw [← hga]
  exact h1 a ha

/-- A full pass over a conflict-free, name-unset batch keeps every record
and every frame row conflict-free. -/
theorem pass1_keeps_no_conflict (fs : FSView) (fsOk : FileMetadata → Bool)
    (st : PipelineState) (st2 : PipelineState)
    (outs : List (FileMetadata × RenameOutcome))
    (hdf : ∀ o ∈ st.df, o.actual_full_name ≠ some "None")
    (hrecs : ∀ m ∈ st.records, m.new_full_name = none ∧ m.has_conflict = false)
    (h : process_files fs fsOk st false = .ok (st2, outs)) :
    (∀ m ∈ st2.records, m.has_conflict = false) ∧
    (∀ m ∈ st2.df, m.has_conflict = false) := by
  unfold process_files at h
  rw [if_neg (by simp)] at h
  rw [check_conflicts_noflag st.df st.records (fun m hm => (hrecs m hm).1) hdf] at h
  cases hrd : resolve_dates fs st.records false with
  | error e =>
    rw [hrd] at h
    exact Except.noConfusion h
  | ok recs2 =>
    rw [hrd] at h
    simp only [Except.ok.injEq, Prod.mk.injEq] at h
    obtain ⟨h1, _⟩ := h
    have hrecs2 : ∀ m ∈ recs2, m.has_conflict = false :=
      all_eq_of_map_eq (·.has_conflict) false st.records recs2
        (resolve_dates_map (·.has_conflict) (fun m d => smd_date_has_conflict m d)
          fs st.records recs2 false hrd)
        (fun m hm => (hrecs m hm).2)
    have hrecs3 : ∀ m ∈ search_mutual_names recs2 false, m.has_conflict = false :=
      all_eq_of_map_eq (·.has_conflict) false recs2 (search_mutual_names recs2 false)
        (search_mutual_map (·.has_conflict) (fun m k => smd_mutual_has_conflict m k)
          recs2 false)
        hrecs2
    have hrecs4 : ∀ m ∈ (run_renamer fsOk (search_mutual_names recs2 false) false).map (·.1),
        m.has_conflict = false :=
      all_eq_of_map_eq (·.has_conflict) false (search_mutual_names recs2 false) _
        (run_renamer_records_map (·.has_conflict) (fun m => smd_actual_has_conflict m)
          fsOk (search_mutual_names recs2 false) false)
        hrecs3
    rw [← h1]
    exact ⟨hrecs4, hrecs3⟩

/-- C10: as wired, conflict detection runs before any date is resolved or
proposed name built (and not at all in conflict-only mode), so it sees
only unset proposed names and flags nothing; after the full pass no record
and no frame row has `has_conflict = true`, `conflict_exists` is false,
`initialize_conflicts` does nothing, and the conflict-only follow-up pass
returns immediately without touching any record. -/
theorem c10_conflict_pass_always_noop
    (dirs : List (String × (String → List String))) (fs : FSView)
    (fsOk : FileMetadata → Bool) (recs : List FileMetadata)
    (hfetch : fetch_list_files dirs = .ok recs)
    (hnone : ∀ m ∈ recs, m.actual_full_name ≠ some "None") :
    (∀ snap lst, check_conflicts snap lst true = lst) ∧
    check_conflicts recs recs false = recs ∧
    (∀ (st1 : PipelineState) (out1 : List (FileMetadata × RenameOutcome)),
      process_files fs fsOk { records := recs, df := recs } false = .ok (st1, out1) →
      (∀ m ∈ st1.records, m.has_conflict = false) ∧
      conflict_exists st1.df = false ∧
      initialize_conflicts st1 = st1 ∧
      process_files fs fsOk st1 true = .ok (st1, [])) := by
  have hshape := fetch_shape dirs recs hfetch
  refine ⟨fun snap lst => rfl, ?_, ?_⟩
  · exact check_conflicts_noflag recs recs (fun m hm => (hshape m hm).1) hnone
  · intro st1 out1 h
    obtain ⟨hall, halldf⟩ := pass1_keeps_no_conflict fs fsOk
      { records := recs, df := recs } st1 out1 hnone hshape h
    have hce : conflict_exists st1.df = false := by
      unfold conflict_exists
      rw [List.any_eq_false]
      intro m hm
      rw [halldf m hm]
      simp
    refine ⟨hall, hce, ?_, ?_⟩
    · unfold initialize_conflicts
      rw [hce]
      rfl
    · unfold process_files
      rw [hce]
      rfl

/-- Witness for C10 on a one-file directory: the full pass leaves no
conflict and the conflict-only pass is the identity. -/
theorem c10_conflict_pass_always_noop_witness :
    fetch_list_files dirs_c10 = .ok fetched_c10 ∧
    (∀ m ∈ fetched_c10, m.actual_full_name ≠ some "None") ∧
    check_conflicts fetched_c10 fetched_c10 false = fetched_c10 ∧
    process_files bareFS (fun _ => true)
      { records := fetched_c10, df := fetched_c10 } false = .ok (st1_c10, out1_c10) ∧
    conflict_exists st1_c10.df = false ∧
    initialize_conflicts st1_c10 = st1_c10 ∧
    process_files bareFS (fun _ => true) st1_c10 true = .ok (st1_c10, []) := by
  have h := c10_conflict_pass_always_noop dirs_c10 bareFS (fun _ => true) fetched_c10
    (by decide) (by decide)
  have h2 := h.2.2 st1_c10 out1_c10 (by decide)
  exact ⟨by decide, by decide, h.2.1, by decide, h2.2.1, h2.2.2.1, h2.2.2.2⟩

/-! ### C6: mutual-group resolution -/

theorem getD_mem_of_lt {α : Type} (l : List α) (n : Nat) (d : α) (h : n < l.length) :
    l.getD n d ∈ l := by
  rw [List.getD_eq_getElem l d h]
  exact List.getElem_mem h

theorem pyStr_ne_of (dv : Option String) (d : String) (h1 : dv ≠ some d)
    (h2 : d ≠ "None") : pyStr dv ≠ d := by
  cases dv with
  | none => exact fun hc => h2 hc.symm
  | some s =>
    intro hc
    exact h1 (by rw [show pyStr (some s) = s from rfl] at hc; rw [hc])

theorem dedupFirstAux_nodup (seen : List (Option String)) (l : List (Option String)) :
    (dedupFirstAux seen l).Nodup ∧ ∀ x ∈ dedupFirstAux seen l, x ∉ seen := by
  induction l generalizing seen with
  | nil => exact ⟨List.nodup_nil, by intro x hx; simp [dedupFirstAux] at hx⟩
  | cons a l ih =>
    unfold dedupFirstAux
    split_ifs with hmem
    · exact ih seen
    · obtain ⟨hnd, hout⟩ := ih (a :: seen)
      constructor
      · rw [List.nodup_cons]
        exact ⟨fun hc => hout a hc (List.mem_cons_self a seen), hnd⟩
      · intro x hx
        rcases List.mem_cons.mp hx with rfl | hx2
        · exact hmem
        · exact fun hc => hout x hx2 (List.mem_cons_of_mem a hc)

theorem dedupFirst_nodup (l : List (Option String)) : (dedupFirst l).Nodup :=
  (dedupFirstAux_nodup [] l).1

theorem dedupFirstAux_mem (seen : List (Option String)) (l : List (Option String))
    (x : Option String) (hx : x ∈ l) (hseen : x ∉ seen) : x ∈ dedupFirstAux seen l := by
  induction l generalizing seen with
  | nil => simp at hx
  | cons a l ih =>
    unfold dedupFirstAux
    rcases List.mem_cons.mp hx with rfl | hx2
    · rw [if_neg hseen]
      exact List.mem_cons_self x _
    · split_ifs with hmem
      · exact ih seen hx2 hseen
      · by_cases hxa : x = a
        · exact hxa ▸ List.mem_cons_self a _
        · exact List.mem_cons_of_mem a
            (ih (a :: seen) hx2 (by
              intro hc
              rcases List.mem_cons.mp hc with h | h
              · exact hxa h
              · exact hseen h))

theorem dedupFirst_mem (l : List (Option String)) (x : Option String) (hx : x ∈ l) :
    x ∈ dedupFirst l :=
  dedupFirstAux_mem [] l x hx (by simp)

theorem nodup_split {α : Type} (l : List α) (a : α) (hnd : l.Nodup) (ha : a ∈ l) :
    ∃ s t, l = s ++ a :: t ∧ a ∉ s ∧ a ∉ t := by
  obtain ⟨s, t, rfl⟩ := List.append_of_mem ha
  rw [List.nodup_append] at hnd
  obtain ⟨_, hnd2, hdisj⟩ := hnd
  rw [List.nodup_cons] at hnd2
  exact ⟨s, t, rfl, fun hc => hdisj hc (List.mem_cons_self a t), hnd2.1⟩

theorem foldl_flatMap {α β γ : Type} (f : γ → β → γ) (g : α → List β) (l : List α)
    (b : γ) : (l.flatMap g).foldl f b = l.foldl (fun b2 a => (g a).foldl f b2) b := by
  induction l generalizing b with
  | nil => rfl
  | cons a l ih =>
    rw [List.flatMap_cons, List.foldl_append, List.foldl_cons, ih]

theorem assign_length (dv : Option String) (e : String) :
    ∀ (pairs : List (FileMetadata × FileMetadata)) (idx : Nat),
      (assign_mutual_orders dv e pairs idx).length = pairs.length := by
  intro pairs
  induction pairs with
  | nil => intro idx; rfl
  | cons p ps ih =>
    intro idx
    obtain ⟨s, l⟩ := p
    unfold assign_mutual_orders
    split <;> simp [ih]

theorem mark_length (snap live : List FileMetadata) (dv : Option String) (e : String)
    (hlen : live.length = snap.length) :
    (mark_mutual_group snap live dv e).length = live.length := by
  unfold mark_mutual_group
  split
  · rfl
  · rw [assign_length, List.length_zip, hlen, Nat.min_self]

theorem assign_getD (dv : Option String) (e : String) :
    ∀ (snap live : List FileMetadata) (idx i : Nat),
      live.length = snap.length → i < snap.length →
      (assign_mutual_orders dv e (snap.zip live) idx).getD i FileMetadata.init
        = (if matches_group dv e (snap.getD i FileMetadata.init)
           then smd_mutual (live.getD i FileMetadata.init)
                  (idx + (snap.take (i + 1)).countP (matches_group dv e))
           else live.getD i FileMetadata.init) := by
  intro snap
  induction snap with
  | nil =>
    intro live idx i hlen hi
    simp at hi
  | cons s ss ih =>
    intro live idx i hlen hi
    cases live with
    | nil => simp at hlen
    | cons l ls =>
      rw [show (s :: ss).zip (l :: ls) = (s, l) :: ss.zip ls from rfl]
      unfold assign_mutual_orders
      have hlen2 : ls.length = ss.length := by simpa using hlen
      cases i with
      | zero =>
        by_cases hm : matches_group dv e s = true
        · rw [if_pos hm, List.getD_cons_zero, List.getD_cons_zero, List.getD_cons_zero,
            List.take_succ_cons, List.take_zero, List.countP_cons, hm]
          simp [List.countP_nil]
        · have hmf : matches_group dv e s = false := by rwa [Bool.not_eq_true] at hm
          rw [if_neg hm, List.getD_cons_zero, List.getD_cons_zero, List.getD_cons_zero,
            if_neg hm]
      | succ j =>
        have hj : j < ss.length := by simpa using hi
        by_cases hm : matches_group dv e s = true
        · rw [if_pos hm, List.getD_cons_succ, ih ls (idx + 1) j hlen2 hj,
            List.getD_cons_succ, List.take_succ_cons, List.countP_cons, hm,
            List.getD_cons_succ]
          simp only [if_true]
          split_ifs with hm2
          · congr 1
            omega
          · rfl
        · have hmf : matches_group dv e s = false := by rwa [Bool.not_eq_true] at hm
          rw [if_neg hm, List.getD_cons_succ, ih ls idx j hlen2 hj,
            List.getD_cons_succ, List.take_succ_cons, List.countP_cons, hmf,
            List.getD_cons_succ]
          simp only [Bool.false_eq_true, if_false, Nat.add_zero]

theorem mark_getD (snap live : List FileMetadata) (dv : Option String) (e : String)
    (i : Nat) (hlen : live.length = snap.length) (hi : i < snap.length) :
    (mark_mutual_group snap live dv e).getD i FileMetadata.init
      = if 2 ≤ snap.countP (matches_group dv e) ∧
           matches_group dv e (snap.getD i FileMetadata.init) = true
        then smd_mutual (live.getD i FileMetadata.init)
               ((snap.take (i + 1)).countP (matches_group dv e))
        else live.getD i FileMetadata.init := by
  unfold mark_mutual_group
  rw [← List.countP_eq_length_filter]
  split_ifs with h1 h2 h2
  · omega
  · rfl
  · rw [assign_getD dv e snap live 0 i hlen hi, if_pos h2.2, Nat.zero_add]
  · rw [assign_getD dv e snap live 0 i hlen hi, if_neg]
    intro hc
    exact h2 ⟨by omega, hc⟩

theorem fold_untouched (snap : List FileMetadata) (i : Nat) (hi : i < snap.length) :
    ∀ (ps : List (Option String × String)) (live : List FileMetadata),
      live.length = snap.length →
      (∀ p ∈ ps, matches_group p.1 p.2 (snap.getD i FileMetadata.init) = false) →
      ((ps.foldl (fun live p => mark_mutual_group snap live p.1 p.2) live).getD i
          FileMetadata.init = live.getD i FileMetadata.init) ∧
      (ps.foldl (fun live p => mark_mutual_group snap live p.1 p.2) live).length
        = snap.length := by
  intro ps
  induction ps with
  | nil => intro live hlen _; exact ⟨rfl, hlen⟩
  | cons p ps ih =>
    intro live hlen hnm
    rw [List.foldl_cons]
    have hlen2 : (mark_mutual_group snap live p.1 p.2).length = snap.length := by
      rw [mark_length snap live p.1 p.2 hlen, hlen]
    obtain ⟨ihv, ihl⟩ := ih (mark_mutual_group snap live p.1 p.2) hlen2
      (fun q hq => hnm q (List.mem_cons_of_mem p hq))
    refine ⟨?_, ihl⟩
    rw [ihv, mark_getD snap live p.1 p.2 i hlen hi, if_neg]
    intro hc
    rw [hnm p (List.mem_cons_self p ps)] at hc
    exact Bool.false_ne_true hc.2

theorem matches_false_date (m : FileMetadata) (d : String) (dv : Option String)
    (e2 : String) (hdate : m.date_taken = some d) (hne : pyStr dv ≠ d) :
    matches_group dv e2 m = false := by
  unfold matches_group
  rw [hdate]
  have h1 : (some d == some (pyStr dv)) = false := by
    rw [beq_eq_false_iff_ne]
    intro hc
    exact hne (Option.some.inj hc).symm
  rw [h1, Bool.false_and]

theorem matches_false_ext (m : FileMetadata) (e : String) (dv : Option String)
    (e2 : String) (hext : m.ext = some e) (hne : e2 ≠ e) :
    matches_group dv e2 m = false := by
  unfold matches_group
  rw [hext]
  have h1 : (some e == some e2) = false := by
    rw [beq_eq_false_iff_ne]
    intro hc
    exact hne (Option.some.inj hc).symm
  rw [h1, Bool.and_false]

theorem fold_dates_untouched (lst : List FileMetadata) (i : Nat) (hi : i < lst.length)
    (d : String) (hdate : (lst.getD i FileMetadata.init).date_taken = some d)
    (hdn : d ≠ "None") :
    ∀ (ds : List (Option String)) (live : List FileMetadata),
      live.length = lst.length → (∀ dv ∈ ds, dv ≠ some d) →
      ((ds.foldl (fun b2 dv => (FILE_EXTENSIONS.map (fun e2 => (dv, e2))).foldl
          (fun live p => mark_mutual_group lst live p.1 p.2) b2) live).getD i
          FileMetadata.init
        = live.getD i FileMetadata.init) ∧
      (ds.foldl (fun b2 dv => (FILE_EXTENSIONS.map (fun e2 => (dv, e2))).foldl
          (fun live p => mark_mutual_group lst live p.1 p.2) b2) live).length
        = lst.length := by
  intro ds
  induction ds with
  | nil => intro live hlen _; exact ⟨rfl, hlen⟩
  | cons dv ds ih =>
    intro live hlen hne
    rw [List.foldl_cons]
    have hnm : ∀ p ∈ FILE_EXTENSIONS.map (fun e2 => (dv, e2)),
        matches_group p.1 p.2 (lst.getD i FileMetadata.init) = false := by
      intro p hp
      obtain ⟨e2, _, rfl⟩ := List.mem_map.mp hp
      exact matches_false_date _ d dv e2 hdate
        (pyStr_ne_of dv d (hne dv (List.mem_cons_self dv ds)) hdn)
    obtain ⟨hv, hl⟩ := fold_untouched lst i hi (FILE_EXTENSIONS.map (fun e2 => (dv, e2)))
      live hlen hnm
    obtain ⟨ihv, ihl⟩ := ih _ hl (fun dv2 hdv2 => hne dv2 (List.mem_cons_of_mem dv hdv2))
    exact ⟨ihv.trans hv, ihl⟩

/-- C6: mutual-group resolution groups the records by (resolved date,
extension): in full mode, a record whose group (same interpolated date
value, same supported extension) has at least two members receives
`mutual_order` equal to its 1-based position within the group in frame
order (hence suffixes -01, -02, …), while a record alone in its group is
left untouched; records with a different extension never count towards the
group; and the whole pass is skipped in conflict-only mode. -/
theorem c6_mutual_grouping :
    (∀ lst : List FileMetadata, search_mutual_names lst true = lst) ∧
    (∀ (lst : List FileMetadata) (i : Nat) (d e : String),
      i < lst.length →
      (lst.getD i FileMetadata.init).date_taken = some d →
      (lst.getD i FileMetadata.init).ext = some e →
      d ≠ "None" →
      e ∈ FILE_EXTENSIONS →
      (2 ≤ lst.countP (matches_group (some d) e) →
        (search_mutual_names lst false).getD i FileMetadata.init
          = smd_mutual (lst.getD i FileMetadata.init)
              ((lst.take (i + 1)).countP (matches_group (some d) e))) ∧
      (lst.countP (matches_group (some d) e) < 2 →
        (search_mutual_names lst false).getD i FileMetadata.init
          = lst.getD i FileMetadata.init)) := by
  refine ⟨fun lst => rfl, ?_⟩
  intro lst i d e hi hdate hext hdn hemem
  have hm : matches_group (some d) e (lst.getD i FileMetadata.init) = true := by
    unfold matches_group
    rw [hdate, hext]
    simp [pyStr]
  have hdm : some d ∈ dedupFirst (lst.map (·.date_taken)) := by
    apply dedupFirst_mem
    rw [← hdate]
    exact List.mem_map_of_mem _ (getD_mem_of_lt lst i FileMetadata.init hi)
  obtain ⟨D1, D2, hD, hD1, hD2⟩ := nodup_split _ (some d) (dedupFirst_nodup _) hdm
  obtain ⟨E1, E2, hE, hE1, hE2⟩ := nodup_split FILE_EXTENSIONS e (by decide) hemem
  have hsm : search_mutual_names lst false
      = ((dedupFirst (lst.map (·.date_taken))).foldl
          (fun b2 dv => (FILE_EXTENSIONS.map (fun e2 => (dv, e2))).foldl
            (fun live p => mark_mutual_group lst live p.1 p.2) b2) lst) := by
    show (date_ext_pairs lst).foldl (fun live p => mark_mutual_group lst live p.1 p.2) lst
      = _
    unfold date_ext_pairs
    rw [foldl_flatMap]
  rw [hsm, hD, List.foldl_append, List.foldl_cons]
  obtain ⟨h1v, h1l⟩ := fold_dates_untouched lst i hi d hdate hdn D1 lst rfl
    (fun dv hdv hc => hD1 (hc ▸ hdv))
  have hEmap : FILE_EXTENSIONS.map (fun e2 => ((some d : Option String), e2))
      = E1.map (fun e2 => ((some d : Option String), e2))
        ++ ((some d : Option String), e) :: E2.map (fun e2 => ((some d : Option String), e2)) := by
    rw [hE, List.map_append, List.map_cons]
  rw [hEmap, List.foldl_append, List.foldl_cons]
  obtain ⟨h2v, h2l⟩ := fold_untouched lst i hi (E1.map (fun e2 => (some d, e2))) _ h1l
    (by
      intro p hp
      obtain ⟨e2, he2, rfl⟩ := List.mem_map.mp hp
      exact matches_false_ext _ e (some d) e2 hext (fun hc => hE1 (hc ▸ he2)))
  have h3 := mark_getD lst _ (some d) e i h2l hi
  have h3l : (mark_mutual_group lst
      ((E1.map (fun e2 => (some d, e2))).foldl
        (fun live p => mark_mutual_group lst live p.1 p.2)
        (D1.foldl (fun b2 dv => (FILE_EXTENSIONS.map (fun e2 => (dv, e2))).foldl
          (fun live p => mark_mutual_group lst live p.1 p.2) b2) lst))
      (some d) e).length = lst.length := by
    rw [mark_length _ _ _ _ h2l, h2l]
  obtain ⟨h4v, h4l⟩ := fold_untouched lst i hi (E2.map (fun e2 => (some d, e2))) _ h3l
    (by
      intro p hp
      obtain ⟨e2, he2, rfl⟩ := List.mem_map.mp hp
      exact matches_false_ext _ e (some d) e2 hext (fun hc => hE2 (hc ▸ he2)))
  obtain ⟨h5v, h5l⟩ := fold_dates_untouched lst i hi d hdate hdn D2 _ h4l
    (fun dv hdv hc => hD2 (hc ▸ hdv))
  rw [h5v, h4v, h3, h2v, h1v]
  constructor
  · intro hcnt
    rw [if_pos ⟨hcnt, hm⟩]
  · intro hcnt
    rw [if_neg]
    intro hc
    omega

/-- Witness for C6 on the spec's example: three `.jpg` records with one
date get the suffixes -01, -02, -03 in discovery order and the `.mov`
with the same date stays unsuffixed. -/
theorem c6_mutual_grouping_witness :
    (1 < recs_c6.length ∧
      (recs_c6.getD 1 FileMetadata.init).date_taken = some "20200101-090000" ∧
      (recs_c6.getD 1 FileMetadata.init).ext = some "jpg" ∧
      2 ≤ recs_c6.countP (matches_group (some "20200101-090000") "jpg")) ∧
    (search_mutual_names recs_c6 false).getD 1 FileMetadata.init
      = smd_mutual (recs_c6.getD 1 FileMetadata.init)
          ((recs_c6.take 2).countP (matches_group (some "20200101-090000") "jpg")) ∧
    (search_mutual_names recs_c6 false).map (·.new_full_name)
      = [some "20200101-090000-01.jpg", some "20200101-090000-02.jpg",
         some "20200101-090000-03.jpg", some "20200101-090000.mov"] := by
  refine ⟨⟨by decide, by decide, by decide, by decide⟩, ?_, by decide⟩
  exact (c6_mutual_grouping.2 recs_c6 1 "20200101-090000" "jpg" (by decide) (by decide)
    (by decide) (by decide) (by decide)).1 (by decide)
